import Mathlib

/-!
# Service description codec (`mepserver/mp1/models/serviceinfo.go`)

A shallow embedding of the codec between `ServiceInfo` (the MEC service
description) and the service-center `MicroServiceInstance` record, and of
`getTrustedIpList` of `mepauth/apigw.go`, followed by theorems about them.

Conventions of the embedding:

* a Go `string` is a Lean `String`; Go strings are byte sequences, and every
  separator the codec searches for is an ASCII character, so on valid UTF-8 text
  the character-level operations below agree with Go's byte-level ones;
* a Go slice is a `List` (a nil slice and an empty slice are both `[]`);
* a Go `map[string]string` is `Properties`, an association list with unique
  keys; a map that may be nil is an `Option Properties`;
* a pointer that may be nil is an `Option`;
* an `interface{}` value that may be nil is an `Option Doc`, for a type `Doc`
  of documents; `encoding/json` is a parameter (`JsonLib Doc`);
* `uint32` is a `Nat` (below `2 ^ 32`), conversions to it reduce modulo `2 ^ 32`;
* a function that can panic returns an `Option`, `none` being the panic;
* the clock read by `time.Now().Unix()` is an explicit argument.
-/

namespace Mep

/-! ## The property bag: `map[string]string` -/

/-- Go `map[string]string`: an association list, at most one entry per key. -/
structure Properties where
  entries : List (String × String)
deriving DecidableEq, Repr

namespace Properties

/-- The map `make(map[string]string, n)`: the capacity hint has no meaning. -/
def empty : Properties := ⟨[]⟩

/-- The two-valued read `v, ok := m[k]`. -/
def find? (m : Properties) (k : String) : Option String :=
  m.entries.lookup k

/-- The read `m[k]`: the zero value `""` when the key is missing. -/
def index (m : Properties) (k : String) : String :=
  (m.find? k).getD ""

/-- The write `m[k] = v`: replaces the entry of `k` when there is one. -/
def set (m : Properties) (k v : String) : Properties :=
  ⟨(k, v) :: m.entries.filter (fun e => !(e.1 == k))⟩

/-- The keys of the map. -/
def keys (m : Properties) : List String :=
  m.entries.map Prod.fst

end Properties

/-! ## Data model -/

/-- The type `CategoryRef`. -/
structure CategoryRef where
  Href : String := ""
  ID : String := ""
  Name : String := ""
  Version : String := ""
deriving DecidableEq, Repr

/-- The type `EndPointInfoAddress`: `Port` is a `uint32`. -/
structure EndPointInfoAddress where
  Host : String := ""
  Port : Nat := 0
deriving DecidableEq, Repr

/-- The type `EndPointInfo`: the three endpoint variants. -/
structure EndPointInfo (Doc : Type) where
  Uris : List String := []
  Addresses : List EndPointInfoAddress := []
  Alternative : Option Doc := none
deriving DecidableEq, Repr

/-- The type `OAuth2Info`. -/
structure OAuth2Info where
  GrantTypes : List String := []
  TokenEndpoint : String := ""
deriving DecidableEq, Repr

/-- The type `SecurityInfo`. -/
structure SecurityInfo where
  OAuth2Info : OAuth2Info := {}
deriving DecidableEq, Repr

/-- The type `TransportInfo`; `TransType` is a `TransportTypes`, a named string type. -/
structure TransportInfo (Doc : Type) where
  ID : String := ""
  Name : String := ""
  Description : String := ""
  TransType : String := ""
  Protocol : String := ""
  Version : String := ""
  Endpoint : EndPointInfo Doc := {}
  Security : SecurityInfo := {}
deriving DecidableEq, Repr

/-- The type `ServiceInfo`; `{}` is its zero value. -/
structure ServiceInfo (Doc : Type) where
  SerInstanceId : String := ""
  SerName : String := ""
  SerCategory : CategoryRef := {}
  Version : String := ""
  State : String := ""
  TransportID : String := ""
  TransportInfo : TransportInfo Doc := {}
  Serializer : String := ""
  ScopeOfLocality : String := ""
  ConsumedLocalOnly : Bool := false
  IsLocal : Bool := false
deriving DecidableEq, Repr

/-- The health check modes of `proto` (`CHECK_BY_HEARTBEAT`, `CHECK_BY_PLATFORM`). -/
inductive CheckMode where
  | CHECK_BY_HEARTBEAT
  | CHECK_BY_PLATFORM
deriving DecidableEq, Repr

/-- The type `proto.HealthCheck`. -/
structure HealthCheck where
  Mode : CheckMode
  Port : Int
  Interval : Int
  Times : Int
  Url : String
deriving DecidableEq, Repr

/-- The fields of `proto.MicroServiceInstance` the codec reads or writes. -/
structure MicroServiceInstance where
  InstanceId : String := ""
  ServiceId : String := ""
  Endpoints : List String := []
  HostName : String := ""
  Status : String := ""
  Properties : Option Properties := none
  HealthCheck : Option HealthCheck := none
  Timestamp : String := ""
  ModTimestamp : String := ""
  Version : String := ""
deriving DecidableEq, Repr

/-- The type `proto.RegisterInstanceRequest`. -/
structure RegisterInstanceRequest where
  Instance : Option MicroServiceInstance := none
deriving DecidableEq, Repr

/-- The fields of `proto.MicroService` the codec writes. -/
structure MicroService where
  AppId : String := ""
  ServiceName : String := ""
  Version : String := ""
  Status : String := ""
deriving DecidableEq, Repr

/-- The type `proto.CreateServiceRequest`. -/
structure CreateServiceRequest where
  Service : Option MicroService := none
deriving DecidableEq, Repr

/-! ## Library functions -/

/-- The JSON library: `json.Marshal` on documents, and JSON decoding of a text
into an `interface{}` (`ok none` is the text `null`). -/
structure JsonLib (Doc : Type) where
  Marshal : Doc → Except String String
  Unmarshal : String → Except String (Option Doc)

/-- Go `strconv.FormatBool`. -/
def FormatBool (b : Bool) : String :=
  if b then "true" else "false"

/-- Go `strconv.ParseBool`: the value, and whether parsing failed. -/
def ParseBool (str : String) : Bool × Bool :=
  if str = "1" ∨ str = "t" ∨ str = "T" ∨ str = "true" ∨ str = "TRUE" ∨ str = "True" then
    (true, false)
  else if str = "0" ∨ str = "f" ∨ str = "F" ∨ str = "false" ∨ str = "FALSE" ∨ str = "False" then
    (false, false)
  else (false, true)

/-- Go `strconv.FormatInt(n, 10)`. -/
def FormatInt (n : Int) : String :=
  toString n

/-- Go `fmt.Sprintf("%d", n)` for an unsigned `n`. -/
def FormatUint (n : Nat) : String :=
  toString n

/-- Go `strings.Join`. -/
def Join (elems : List String) (sep : String) : String :=
  sep.intercalate elems

/-- Go `strings.Split(s, sep)` for a separator of one character. -/
def Split (s : String) (sep : Char) : List String :=
  (s.data.splitOn sep).map String.mk

/-- Go `strings.HasSuffix`. -/
def HasSuffix (s suffix : String) : Bool :=
  s.data.reverse.take suffix.data.length == suffix.data.reverse

/-- The Go slice `s[:n]`, the first `n` units of the string (`n` counts bytes in
Go and characters here; the two agree on what `s[:len(s)-len(",")]` removes from a
string that ends with the ASCII comma). -/
def sliceTo (s : String) (n : Nat) : String :=
  String.mk (s.data.take n)

/-- The constant `PropertiesMapSize`. -/
def PropertiesMapSize : Nat := 5

/-- The constant `FormatIntBase`. -/
def FormatIntBase : Nat := 10

/-- The constant `math.MaxInt32`. -/
def MaxInt32 : Int := 2147483647

/-! ## Helpers of `mepserver/common/util` -/

/-- Modelled from the spec: the constant `meputil.Uris`, the marker of the
`Uris` endpoint variant ("If Uris is non-empty, endpoints = Uris, marker = uris"). -/
def Uris : String := "uris"

/-- Modelled from the spec: the helper `meputil.InfoToProperties`, the namespaced
write with the empty-omission rule ("empty string: no key emitted, not an emitted
key with empty value"). A non-empty value is written under the key. -/
def InfoToProperties (properties : Properties) (key value : String) : Properties :=
  if value = "" then properties else properties.set key value

/-- The value of a non-empty string of decimal digits. -/
def parseDecimal (cs : List Char) : Option Nat :=
  if cs ≠ [] ∧ cs.all Char.isDigit = true then
    some (cs.foldl (fun n c => 10 * n + (c.toNat - 48)) 0)
  else none

/-- Modelled from the spec: the helper `meputil.GetHostPort` ("each endpoint
string is split into host/port"), the inverse of the encoder's format
`{host}:{port}`: the host is the text before the last colon and the port the
decimal number after it, `0` when that text is not a decimal number; a string
without a colon is a host with port `0`. -/
def GetHostPort (uri : String) : String × Nat :=
  let r := uri.data.reverse
  match r.dropWhile (fun c => c != ':') with
  | [] => (uri, 0)
  | _ :: hostRev =>
    (String.mk hostRev.reverse,
      (parseDecimal (r.takeWhile (fun c => c != ':')).reverse).getD 0)

/-- Modelled from the spec: the helper `meputil.JsonTextToObj` ("attempt to
parse the first endpoint element as structured data"): the decoded object and
the error, one of which is nil. -/
def JsonTextToObj {Doc : Type} (J : JsonLib Doc) (jsonText : String) :
    Option Doc × Option String :=
  match J.Unmarshal jsonText with
  | .ok obj => (obj, none)
  | .error err => (none, some err)

/-- The JSON library on documents that are natural numbers: a number marshals to
its decimal text; that text decodes to the number, `null` decodes to nil, and
any other text is rejected. -/
def natJson : JsonLib Nat where
  Marshal n := .ok (toString n)
  Unmarshal text :=
    match parseDecimal text.data with
    | some n => if toString n = text then .ok (some n) else .error "invalid character"
    | none => if text = "null" then .ok none else .error "invalid character"

/-- A JSON library whose `Marshal` fails on every document (an unsupported type). -/
def failingJson : JsonLib Nat where
  Marshal _ := .error "json: unsupported type"
  Unmarshal := natJson.Unmarshal

/-! ## Encoder -/

section Codec

variable {Doc : Type}

/-- The method `ServiceInfo.ToServiceRequest`: the request after the call
(`none`: the nil request, left alone). -/
def ServiceInfo.ToServiceRequest (s : ServiceInfo Doc) (req : Option CreateServiceRequest) :
    Option CreateServiceRequest :=
  match req with
  | none => none
  | some req =>
    let service := req.Service.getD {}
    let service := { service with AppId := "", ServiceName := s.SerName, Version := s.Version }
    let service := { service with Status := "UP" }
    let service := if s.State = "INACTIVE" then { service with Status := "DOWN" } else service
    some { req with Service := some service }

/-- The method `ServiceInfo.toEndpoints`. -/
def ServiceInfo.toEndpoints (J : JsonLib Doc) (s : ServiceInfo Doc) : List String × String :=
  if s.TransportInfo.Endpoint.Uris.length ≠ 0 then
    (s.TransportInfo.Endpoint.Uris, Uris)
  else if s.TransportInfo.Endpoint.Addresses.length ≠ 0 then
    (s.TransportInfo.Endpoint.Addresses.map (fun v => v.Host ++ ":" ++ FormatUint v.Port),
      "addresses")
  else
    match s.TransportInfo.Endpoint.Alternative with
    | some alt =>
      match J.Marshal alt with
      | .error _ => ([], "")
      | .ok jsonText => ([jsonText], "alternative")
    | none => ([], "")

/-- The method `ServiceInfo.transportInfoToProperties`: the map after the call. -/
def ServiceInfo.transportInfoToProperties (s : ServiceInfo Doc) (properties : Option Properties) :
    Option Properties :=
  match properties with
  | none => none
  | some p =>
    let p := InfoToProperties p "transportInfo/id" s.TransportInfo.ID
    let p := InfoToProperties p "transportInfo/name" s.TransportInfo.Name
    let p := InfoToProperties p "transportInfo/description" s.TransportInfo.Description
    let p := InfoToProperties p "transportInfo/type" s.TransportInfo.TransType
    let p := InfoToProperties p "transportInfo/protocol" s.TransportInfo.Protocol
    let p := InfoToProperties p "transportInfo/version" s.TransportInfo.Version
    let grantTypes := Join s.TransportInfo.Security.OAuth2Info.GrantTypes "，"
    let p := InfoToProperties p "transportInfo/security/oAuth2Info/grantTypes" grantTypes
    let p := InfoToProperties p "transportInfo/security/oAuth2Info/tokenEndpoint"
      s.TransportInfo.Security.OAuth2Info.TokenEndpoint
    some p

/-- The method `ServiceInfo.serCategoryToProperties`: the map after the call. -/
def ServiceInfo.serCategoryToProperties (s : ServiceInfo Doc) (properties : Option Properties) :
    Option Properties :=
  match properties with
  | none => none
  | some p =>
    let p := InfoToProperties p "serCategory/href" s.SerCategory.Href
    let p := InfoToProperties p "serCategory/id" s.SerCategory.ID
    let p := InfoToProperties p "serCategory/name" s.SerCategory.Name
    let p := InfoToProperties p "serCategory/version" s.SerCategory.Version
    some p

/-- The method `ServiceInfo.ToRegisterInstance`, at clock value `now`: the
request after the call (`none`: the nil request, left alone). The map of the
instance is made afresh, so each write below is on a non-nil map. -/
def ServiceInfo.ToRegisterInstance (J : JsonLib Doc) (s : ServiceInfo Doc) (now : Int)
    (req : Option RegisterInstanceRequest) : Option RegisterInstanceRequest :=
  match req with
  | none => none
  | some req =>
    let inst := req.Instance.getD {}
    let properties : Option Properties := some Properties.empty
    let properties := properties.map (fun p => p.set "serName" s.SerName)
    let properties := s.serCategoryToProperties properties
    let inst := { inst with Version := s.Version }
    let inst := { inst with Timestamp := FormatInt now }
    let inst := { inst with ModTimestamp := inst.Timestamp }
    let inst := { inst with Status := "UP" }
    let inst := if s.State = "INACTIVE" then { inst with Status := "DOWN" } else inst
    let properties := properties.map (fun p => InfoToProperties p "transportId" s.TransportID)
    let properties := properties.map (fun p => InfoToProperties p "serializer" s.Serializer)
    let properties := properties.map
      (fun p => InfoToProperties p "ScopeOfLocality" s.ScopeOfLocality)
    let properties := properties.map
      (fun p => InfoToProperties p "ConsumedLocalOnly" (FormatBool s.ConsumedLocalOnly))
    let properties := properties.map (fun p => InfoToProperties p "IsLocal" (FormatBool s.IsLocal))
    let inst := { inst with HostName := "default" }
    let ep := s.toEndpoints J
    let inst := { inst with Endpoints := ep.1 }
    let properties := properties.map (fun p => p.set "endPointType" ep.2)
    let healthCheck : HealthCheck :=
      { Mode := CheckMode.CHECK_BY_HEARTBEAT, Port := 0, Interval := MaxInt32 - 1, Times := 0,
        Url := "" }
    let inst := { inst with HealthCheck := some healthCheck }
    let properties := s.transportInfoToProperties properties
    some { req with Instance := some { inst with Properties := properties } }

/-! ## Decoder -/

/-- The method `ServiceInfo.serCategoryFromProperties`. -/
def ServiceInfo.serCategoryFromProperties (s : ServiceInfo Doc) (properties : Option Properties) :
    ServiceInfo Doc :=
  match properties with
  | none => s
  | some p =>
    { s with
      SerCategory :=
        { Href := p.index "serCategory/href", ID := p.index "serCategory/id",
          Name := p.index "serCategory/name", Version := p.index "serCategory/version" } }

/-- The method `ServiceInfo.fromEndpoints`; `none` is the panic of `uris[0]` on
an empty slice. -/
def ServiceInfo.fromEndpoints (J : JsonLib Doc) (s : ServiceInfo Doc) (uris : List String)
    (epType : String) : Option (ServiceInfo Doc) :=
  if epType = "uris" then
    some { s with TransportInfo.Endpoint.Uris := uris }
  else
    let s :=
      if epType = "addresses" then
        { s with
          TransportInfo.Endpoint.Addresses :=
            uris.map (fun v =>
              let hp := GetHostPort v
              { Host := hp.1, Port := hp.2 % 2 ^ 32 }) }
      else s
    if epType = "alternative" then
      match uris with
      | [] => none
      | u :: _ =>
        let r := JsonTextToObj J u
        if r.2 ≠ none then some { s with TransportInfo.Endpoint.Alternative := r.1 } else some s
    else some s

/-- The method `ServiceInfo.transportInfoFromProperties`. -/
def ServiceInfo.transportInfoFromProperties (s : ServiceInfo Doc)
    (properties : Option Properties) : ServiceInfo Doc :=
  match properties with
  | none => s
  | some p =>
    let grantTypes := p.index "transportInfo/security/oAuth2Info/grantTypes"
    { s with
      TransportInfo :=
        { s.TransportInfo with
          ID := p.index "transportInfo/id"
          Name := p.index "transportInfo/name"
          Description := p.index "transportInfo/description"
          TransType := p.index "transportInfo/type"
          Protocol := p.index "transportInfo/protocol"
          Version := p.index "transportInfo/version"
          Security :=
            { OAuth2Info :=
                { GrantTypes := Split grantTypes ','
                  TokenEndpoint :=
                    p.index "transportInfo/security/oAuth2Info/tokenEndpoint" } } } }

/-- The method `ServiceInfo.FromServiceInstance`: the description after the
call; `none` is a panic. -/
def ServiceInfo.FromServiceInstance (J : JsonLib Doc) (s : ServiceInfo Doc)
    (inst : Option MicroServiceInstance) : Option (ServiceInfo Doc) :=
  match inst with
  | none => some s
  | some inst =>
    match inst.Properties with
    | none => some s
    | some p =>
      let s := { s with SerInstanceId := inst.ServiceId ++ inst.InstanceId }
      let s := s.serCategoryFromProperties (some p)
      let s := { s with Version := inst.Version }
      let s := { s with State := "ACTIVE" }
      let s := if inst.Status = "DOWN" then { s with State := "INACTIVE" } else s
      let s := { s with SerName := p.index "serName" }
      let s := { s with TransportID := p.index "transportId" }
      let s := { s with Serializer := p.index "serializer" }
      let epType := p.index "endPointType"
      let s := { s with ScopeOfLocality := p.index "ScopeOfLocality" }
      let s := { s with ConsumedLocalOnly := (ParseBool (p.index "ConsumedLocalOnly")).1 }
      let s := { s with IsLocal := (ParseBool (p.index "IsLocal")).1 }
      match s.fromEndpoints J inst.Endpoints epType with
      | none => none
      | some s => some (s.transportInfoFromProperties (some p))

/-! ## Encode, decode and their composition -/

/-- The property bag `ToRegisterInstance` builds: its writes, in source order. -/
def encodedProperties (J : JsonLib Doc) (s : ServiceInfo Doc) : Option Properties :=
  let properties : Option Properties := some Properties.empty
  let properties := properties.map (fun p => p.set "serName" s.SerName)
  let properties := s.serCategoryToProperties properties
  let properties := properties.map (fun p => InfoToProperties p "transportId" s.TransportID)
  let properties := properties.map (fun p => InfoToProperties p "serializer" s.Serializer)
  let properties := properties.map
    (fun p => InfoToProperties p "ScopeOfLocality" s.ScopeOfLocality)
  let properties := properties.map
    (fun p => InfoToProperties p "ConsumedLocalOnly" (FormatBool s.ConsumedLocalOnly))
  let properties := properties.map (fun p => InfoToProperties p "IsLocal" (FormatBool s.IsLocal))
  let properties := properties.map (fun p => p.set "endPointType" (s.toEndpoints J).2)
  s.transportInfoToProperties properties

/-- The instance record left in the request `req` by `ToRegisterInstance`. -/
def encode (J : JsonLib Doc) (s : ServiceInfo Doc) (now : Int) (req : RegisterInstanceRequest) :
    Option MicroServiceInstance :=
  (s.ToRegisterInstance J now (some req)).bind (fun r => r.Instance)

/-- The description `FromServiceInstance` decodes from `inst` into a fresh,
zero-valued `ServiceInfo`. -/
def decode (J : JsonLib Doc) (inst : MicroServiceInstance) : Option (ServiceInfo Doc) :=
  ServiceInfo.FromServiceInstance J {} (some inst)

/-- Decoding the record encoded from `s`. -/
def roundTrip (J : JsonLib Doc) (s : ServiceInfo Doc) (now : Int)
    (req : RegisterInstanceRequest) : Option (ServiceInfo Doc) :=
  (encode J s now req).bind (decode J)

end Codec

/-! ## The wire-format keys (spec, section 6) -/

/-- The keys of the property bag as the spec lists them in its table of the wire
format. -/
def wireKeys : List String :=
  ["serName",
   "serCategory/href", "serCategory/id", "serCategory/name", "serCategory/version",
   "transportId", "serializer", "ScopeOfLocality", "ConsumedLocalOnly", "IsLocal",
   "endPointType",
   "transportInfo/id", "transportInfo/name", "transportInfo/description",
   "transportInfo/type", "transportInfo/protocol", "transportInfo/version",
   "transportInfo/security/oAuth2Info/grantTypes",
   "transportInfo/security/oAuth2Info/tokenEndpoint"]

/-! ## The trusted network list of the API gateway (`mepauth/apigw.go`) -/

/-- The function `getTrustedIpList`. -/
def getTrustedIpList (trustedNetworksList : List String) : String :=
  let ipcidrList : String := ""
  let ipList := "\x7b \"whitelist\": ["
  let ipcidrList :=
    trustedNetworksList.foldl (fun acc ipcidr => acc ++ ("\"" ++ ipcidr ++ "\",")) ipcidrList
  let ipcidrList :=
    if HasSuffix ipcidrList "," then sliceTo ipcidrList (ipcidrList.length - ",".length)
    else ipcidrList
  let ipList := ipList ++ ipcidrList ++ "] \x7d"
  ipList

/-- The text the claim gives for a list: the elements, each in double quotes,
separated by single commas. -/
def quotedList (l : List String) : String :=
  ",".intercalate (l.map (fun e => "\"" ++ e ++ "\""))

/-! ## Sample values -/

/-- A description with every scalar field set and the `Uris` variant populated. -/
def sampleService : ServiceInfo Nat :=
  { SerName := "locationService"
    SerCategory := { Href := "/catalogue/1", ID := "id12345", Name := "RNI", Version := "1.2.2" }
    Version := "4.5.8"
    State := "ACTIVE"
    TransportID := "Rest1"
    TransportInfo :=
      { ID := "TransId12345", Name := "REST", Description := "REST API", TransType := "REST_HTTP",
        Protocol := "HTTP", Version := "2.0"
        Endpoint := { Uris := ["a", "b"] }
        Security := { OAuth2Info := { GrantTypes := ["client_credentials"],
                                      TokenEndpoint := "/mecSerMgmtApi/security/TokenEndPoint" } } }
    Serializer := "JSON"
    ScopeOfLocality := "MEC_SYSTEM"
    ConsumedLocalOnly := true
    IsLocal := true }

/-- A description whose only populated endpoint variant is `Addresses`. -/
def sampleAddresses : ServiceInfo Nat :=
  { SerName := "s", State := "INACTIVE",
    TransportInfo := { Endpoint := { Addresses := [{ Host := "10.0.0.1", Port := 8080 }] } } }

/-- A description whose only populated endpoint variant is `Alternative`, the
JSON document `7`. -/
def sampleAlternative : ServiceInfo Nat :=
  { SerName := "s", State := "ACTIVE",
    TransportInfo := { Endpoint := { Alternative := some 7 } } }

/-- A description with two OAuth2 grant types. -/
def sampleGrantTypes : ServiceInfo Nat :=
  { SerName := "s", State := "ACTIVE",
    TransportInfo :=
      { Security := { OAuth2Info := { GrantTypes := ["client_credentials", "password"] } } } }

/-- A description with no endpoint variant populated. -/
def sampleNoEndpoint : ServiceInfo Nat :=
  { SerName := "s", Version := "1.0", State := "ACTIVE", Serializer := "JSON" }

/-- A record as the registry returns it, with status `UP`. -/
def sampleInstance : MicroServiceInstance :=
  { InstanceId := "i1", ServiceId := "s1", Endpoints := ["a"], Status := "UP",
    Properties := some ⟨[("serName", "s"), ("endPointType", "uris")]⟩, Version := "1.0" }

/-- A description with all three endpoint variants populated. -/
def sampleAllVariants : ServiceInfo Nat :=
  { SerName := "s", State := "ACTIVE",
    TransportInfo :=
      { Endpoint :=
          { Uris := ["a"], Addresses := [{ Host := "10.0.0.1", Port := 8080 }],
            Alternative := some 7 } } }

/-- A description whose state is neither `ACTIVE` nor `INACTIVE`. -/
def sampleUnknownState : ServiceInfo Nat :=
  { SerName := "s", Version := "1.0", State := "SUSPENDED", Serializer := "JSON" }

/-- A record whose property map is nil. -/
def sampleNilProperties : MicroServiceInstance :=
  { InstanceId := "i1", ServiceId := "s1", Status := "DOWN", Version := "1.0" }

/-- A record with a name, the marker `alternative` and no endpoint. -/
def sampleAlternativeNoEndpoint : MicroServiceInstance :=
  { InstanceId := "i1", ServiceId := "s1", Endpoints := [], Status := "UP",
    Properties := some ⟨[("serName", "s"), ("endPointType", "alternative")]⟩, Version := "1.0" }

/-- A record whose property map is not nil and has no key. -/
def sampleEmptyBag : MicroServiceInstance :=
  { InstanceId := "i1", ServiceId := "s1", Endpoints := [], Status := "UP",
    Properties := some Properties.empty, Version := "1.0" }

/-- A request whose instance already has a property bag, with a key that is not
a wire-format key. -/
def sampleStaleRequest : RegisterInstanceRequest :=
  { Instance := some
      { InstanceId := "i0", ServiceId := "s0",
        Properties := some ⟨[("stale", "x"), ("serName", "old")]⟩ } }

/-- A record with the marker `alternative` and one endpoint, the JSON text `7`. -/
def sampleAlternativeInstance : MicroServiceInstance :=
  { InstanceId := "i1", ServiceId := "s1", Endpoints := ["7"], Status := "UP",
    Properties := some ⟨[("serName", "s"), ("endPointType", "alternative")]⟩, Version := "1.0" }

/-- A record with the marker `addresses`, an unparsable `ConsumedLocalOnly` and
no `IsLocal`. -/
def sampleBadBool : MicroServiceInstance :=
  { InstanceId := "i1", ServiceId := "s1", Endpoints := ["10.0.0.1:8080"], Status := "down",
    Properties :=
      some ⟨[("serName", "s"), ("endPointType", "addresses"), ("ConsumedLocalOnly", "yes")]⟩,
    Version := "1.0" }

/-- A record whose marker is `URIS`, in the wrong case, with two endpoints. -/
def sampleWrongCaseMarker : MicroServiceInstance :=
  { InstanceId := "i1", ServiceId := "s1", Endpoints := ["a", "b"], Status := "UP",
    Properties := some ⟨[("serName", "s"), ("endPointType", "URIS")]⟩, Version := "1.0" }

/-- A description with the single grant type `client_credentials`. -/
def sampleOneGrantType : ServiceInfo Nat :=
  { SerName := "s", State := "ACTIVE",
    TransportInfo := { Security := { OAuth2Info := { GrantTypes := ["client_credentials"] } } } }

/-! ## Reading a property bag after writes -/

namespace Properties

/-- Reading the empty map gives the zero value. -/
theorem index_empty (k : String) : empty.index k = "" := rfl

/-- A read after a write to the same key gives the written value. -/
theorem index_set_same (m : Properties) (k v : String) : (m.set k v).index k = v := by
  simp [index, find?, set, List.lookup]

/-- A write leaves the entries of the other keys alone. -/
theorem find?_set_ne (m : Properties) (k k0 v : String) (h : k ≠ k0) :
    (m.set k0 v).find? k = m.find? k := by
  obtain ⟨es⟩ := m
  have hk : (k == k0) = false := by simpa using h
  simp only [find?, set, List.lookup, hk]
  induction es with
  | nil => rfl
  | cons e es ih =>
    obtain ⟨a, b⟩ := e
    by_cases ha : a = k0
    · subst ha
      have hka : (k == a) = false := by simpa using h
      simp [List.filter, List.lookup, hka, ih]
    · have hne : (a == k0) = false := by simpa using ha
      simp only [List.filter, hne, Bool.not_false, List.lookup]
      cases hka : (k == a) with
      | true => rfl
      | false => simpa using ih

/-- A read is not changed by a write to another key. -/
theorem index_set_ne (m : Properties) (k k0 v : String) (h : k ≠ k0) :
    (m.set k0 v).index k = m.index k := by
  simp [index, find?_set_ne m k k0 v h]

/-- The empty map has no key. -/
theorem find?_empty (k : String) : Properties.empty.find? k = none := rfl

/-- After a write the key is present, with the written value. -/
theorem find?_set_same (m : Properties) (k v : String) :
    (m.set k v).find? k = some v := by
  simp [Properties.find?, Properties.set, List.lookup]

/-- The two-valued read after a write. -/
theorem find?_set (m : Properties) (k k0 v0 : String) :
    (m.set k0 v0).find? k = if k = k0 then some v0 else m.find? k := by
  by_cases h : k = k0
  · rw [if_pos h, h]; exact Properties.find?_set_same m k0 v0
  · rw [if_neg h]; exact Properties.find?_set_ne m k k0 v0 h

end Properties

/-- The read of a present key is its value. -/
theorem index_of_find? (p : Properties) (k v : String) (h : p.find? k = some v) :
    p.index k = v := by
  simp [Properties.index, h]

/-- The read of a key after `InfoToProperties` on that key. -/
theorem index_InfoToProperties_same (m : Properties) (k v : String) :
    (InfoToProperties m k v).index k = if v = "" then m.index k else v := by
  unfold InfoToProperties
  split
  · rfl
  · exact Properties.index_set_same m k v

/-- `InfoToProperties` does not change the read of another key. -/
theorem index_InfoToProperties_ne (m : Properties) (k k0 v : String) (h : k ≠ k0) :
    (InfoToProperties m k0 v).index k = m.index k := by
  unfold InfoToProperties
  split
  · rfl
  · exact Properties.index_set_ne m k k0 v h

/-- The two-valued read of a key after `InfoToProperties` on that key. -/
theorem find?_InfoToProperties_same (m : Properties) (k v : String) :
    (InfoToProperties m k v).find? k = if v = "" then m.find? k else some v := by
  unfold InfoToProperties
  split
  · rfl
  · exact Properties.find?_set_same m k v

/-- `InfoToProperties` leaves the entries of the other keys alone. -/
theorem find?_InfoToProperties_ne (m : Properties) (k k0 v : String) (h : k ≠ k0) :
    (InfoToProperties m k0 v).find? k = m.find? k := by
  unfold InfoToProperties
  split
  · rfl
  · exact Properties.find?_set_ne m k k0 v h

/-- A direct write keeps "empty values only under the keys of `S`" when its key is
in `S` or its value is not empty. -/
theorem set_nonempty_values (S : String → Prop) (m : Properties) (k0 v0 : String)
    (hm : ∀ k v, m.find? k = some v → ¬ S k → v ≠ "") (h0 : S k0 ∨ v0 ≠ "") :
    ∀ k v, (m.set k0 v0).find? k = some v → ¬ S k → v ≠ "" := by
  intro k v hf hS
  rw [Properties.find?_set] at hf
  by_cases h : k = k0
  · rw [if_pos h] at hf
    cases hf
    rcases h0 with h0 | h0
    · exact absurd (h ▸ h0) hS
    · exact h0
  · rw [if_neg h] at hf
    exact hm k v hf hS

/-- A write through `InfoToProperties` keeps "empty values only under the keys of `S`". -/
theorem InfoToProperties_nonempty_values (S : String → Prop) (m : Properties) (k0 v0 : String)
    (hm : ∀ k v, m.find? k = some v → ¬ S k → v ≠ "") :
    ∀ k v, (InfoToProperties m k0 v0).find? k = some v → ¬ S k → v ≠ "" := by
  unfold InfoToProperties
  split
  · exact hm
  · rename_i hv
    exact set_nonempty_values S m k0 v0 hm (Or.inr hv)

/-! ## Facts about the library functions -/

/-- A string that defaults to the empty string when it is empty is itself. -/
theorem ite_empty_self (v : String) : (if v = "" then "" else v) = v := by
  split
  · rename_i h
    exact h.symm
  · rfl

/-- `ParseBool` reads back what `FormatBool` writes. -/
theorem ParseBool_FormatBool (b : Bool) : (ParseBool (FormatBool b)).1 = b := by
  cases b <;> decide

/-- The character of a digit below ten is a decimal digit with that value. -/
theorem digitChar_spec : ∀ k, k < 10 →
    (Nat.digitChar k).isDigit = true ∧ (Nat.digitChar k).toNat - 48 = k := by
  decide

/-- With enough fuel, `Nat.toDigitsCore` puts in front of the accumulator a non-empty string of
decimal digits whose value is the number. -/
theorem toDigitsCore_spec (fuel : Nat) : ∀ (n : Nat) (ds : List Char), n < fuel →
    ∃ pre, Nat.toDigitsCore 10 fuel n ds = pre ++ ds ∧ pre ≠ [] ∧
      (∀ c ∈ pre, c.isDigit = true) ∧
      pre.foldl (fun n c => 10 * n + (c.toNat - 48)) 0 = n := by
  induction fuel with
  | zero => intro n ds h; omega
  | succ fuel ih =>
    intro n ds h
    have hd := digitChar_spec (n % 10) (Nat.mod_lt n (by decide))
    unfold Nat.toDigitsCore
    simp only
    by_cases h0 : n / 10 = 0
    · rw [if_pos h0]
      refine ⟨[Nat.digitChar (n % 10)], rfl, by simp, ?_, ?_⟩
      · intro c hc
        rw [List.mem_singleton] at hc
        rw [hc]; exact hd.1
      · simp only [List.foldl, hd.2]
        omega
    · rw [if_neg h0]
      obtain ⟨pre, hpre, -, hdig, hval⟩ :=
        ih (n / 10) (Nat.digitChar (n % 10) :: ds) (by omega)
      refine ⟨pre ++ [Nat.digitChar (n % 10)], ?_, by simp, ?_, ?_⟩
      · rw [hpre]; simp
      · intro c hc
        rw [List.mem_append, List.mem_singleton] at hc
        rcases hc with hc | hc
        · exact hdig c hc
        · rw [hc]; exact hd.1
      · rw [List.foldl_append, hval]
        simp only [List.foldl, hd.2]
        omega

/-- `parseDecimal` reads back the decimal digits of a number, all of which are digits. -/
theorem parseDecimal_toDigits (n : Nat) :
    parseDecimal (Nat.toDigits 10 n) = some n ∧ ∀ c ∈ Nat.toDigits 10 n, c.isDigit = true := by
  obtain ⟨pre, hpre, hne, hdig, hval⟩ := toDigitsCore_spec (n + 1) n [] (by omega)
  rw [List.append_nil] at hpre
  unfold Nat.toDigits
  rw [hpre]
  refine ⟨?_, hdig⟩
  unfold parseDecimal
  rw [if_pos ⟨hne, List.all_eq_true.mpr hdig⟩, hval]

/-- `GetHostPort` inverts the address format `host:port` of the encoder. -/
theorem GetHostPort_format (host : String) (port : Nat) :
    GetHostPort (host ++ ":" ++ FormatUint port) = (host, port) := by
  obtain ⟨hparse, hdig⟩ := parseDecimal_toDigits port
  have hcolon : ∀ c ∈ (Nat.toDigits 10 port).reverse, (c != ':') = true := by
    intro c hc
    have := hdig c (List.mem_reverse.mp hc)
    by_cases h : c = ':'
    · subst h; exact absurd this (by decide)
    · simpa using h
  have hdata : (host ++ ":" ++ FormatUint port).data.reverse =
      (Nat.toDigits 10 port).reverse ++ ':' :: host.data.reverse := by
    show (host.data ++ [':'] ++ Nat.toDigits 10 port).reverse = _
    simp
  unfold GetHostPort
  simp only [hdata]
  rw [List.dropWhile_append_of_pos hcolon, List.takeWhile_append_of_pos hcolon]
  simp [hparse]

/-- `FormatInt` of a clock value that is not negative is the decimal digits of
the number, which `parseDecimal` reads back. -/
theorem parseDecimal_FormatInt (t : Int) (h : 0 ≤ t) :
    parseDecimal (FormatInt t).data = some t.toNat := by
  cases t with
  | ofNat n => exact (parseDecimal_toDigits n).1
  | negSucc n => exact absurd h (by simp)

/-! ## Closed forms of the encoder and the decoder -/

section Lemmas

variable {Doc : Type}

/-- With a non-empty `Uris` the encoder takes the `Uris` variant. -/
theorem toEndpoints_uris (J : JsonLib Doc) (x : ServiceInfo Doc)
    (h : x.TransportInfo.Endpoint.Uris ≠ []) :
    x.toEndpoints J = (x.TransportInfo.Endpoint.Uris, "uris") := by
  have h1 : x.TransportInfo.Endpoint.Uris.length ≠ 0 := by
    simpa [List.length_eq_zero] using h
  unfold ServiceInfo.toEndpoints
  rw [if_pos h1]
  rfl

/-- With an empty `Uris` and a non-empty `Addresses` the encoder takes the `Addresses` variant. -/
theorem toEndpoints_addresses (J : JsonLib Doc) (x : ServiceInfo Doc)
    (hu : x.TransportInfo.Endpoint.Uris = []) (ha : x.TransportInfo.Endpoint.Addresses ≠ []) :
    x.toEndpoints J =
      (x.TransportInfo.Endpoint.Addresses.map (fun v => v.Host ++ ":" ++ FormatUint v.Port),
        "addresses") := by
  have h2 : x.TransportInfo.Endpoint.Addresses.length ≠ 0 := by
    simpa [List.length_eq_zero] using ha
  unfold ServiceInfo.toEndpoints
  rw [hu, if_neg (by simp), if_pos h2]

/-- The marker `alternative` comes with exactly one endpoint. -/
theorem toEndpoints_alternative (J : JsonLib Doc) (x : ServiceInfo Doc)
    (h : (x.toEndpoints J).2 = "alternative") : (x.toEndpoints J).1 ≠ [] := by
  unfold ServiceInfo.toEndpoints at h ⊢
  by_cases h1 : x.TransportInfo.Endpoint.Uris.length ≠ 0
  · rw [if_pos h1] at h
    exact absurd (show "uris" = "alternative" from h) (by decide)
  · rw [if_neg h1] at h ⊢
    by_cases h2 : x.TransportInfo.Endpoint.Addresses.length ≠ 0
    · rw [if_pos h2] at h
      exact absurd (show "addresses" = "alternative" from h) (by decide)
    · rw [if_neg h2] at h ⊢
      cases halt : x.TransportInfo.Endpoint.Alternative with
      | none =>
        rw [halt] at h
        exact absurd (show "" = "alternative" from h) (by decide)
      | some alt =>
        rw [halt] at h
        simp only at h ⊢
        cases hm : J.Marshal alt with
        | error e =>
          rw [hm] at h
          exact absurd (show "" = "alternative" from h) (by decide)
        | ok t => simp

/-- Encoding into a non-nil request always leaves an instance; its fields. -/
theorem encode_some (J : JsonLib Doc) (x : ServiceInfo Doc) (now : Int)
    (req : RegisterInstanceRequest) :
    ∃ inst, encode J x now req = some inst ∧
      inst.Properties = encodedProperties J x ∧
      inst.Version = x.Version ∧
      inst.Status = (if x.State = "INACTIVE" then "DOWN" else "UP") ∧
      inst.Endpoints = (x.toEndpoints J).1 ∧
      inst.HostName = "default" ∧
      inst.Timestamp = FormatInt now ∧ inst.ModTimestamp = FormatInt now ∧
      inst.HealthCheck = some
        { Mode := CheckMode.CHECK_BY_HEARTBEAT, Port := 0, Interval := MaxInt32 - 1, Times := 0,
          Url := "" } ∧
      inst.InstanceId = (req.Instance.getD {}).InstanceId ∧
      inst.ServiceId = (req.Instance.getD {}).ServiceId := by
  by_cases h : x.State = "INACTIVE" <;>
    simp [encode, ServiceInfo.ToRegisterInstance, encodedProperties, h]

/-- What the decoder reads in the encoded property bag, key by key. -/
theorem encodedProperties_index (J : JsonLib Doc) (x : ServiceInfo Doc) :
    ∃ p, encodedProperties J x = some p ∧
      p.index "serName" = x.SerName ∧
      p.index "serCategory/href" = x.SerCategory.Href ∧
      p.index "serCategory/id" = x.SerCategory.ID ∧
      p.index "serCategory/name" = x.SerCategory.Name ∧
      p.index "serCategory/version" = x.SerCategory.Version ∧
      p.index "transportId" = x.TransportID ∧
      p.index "serializer" = x.Serializer ∧
      p.index "ScopeOfLocality" = x.ScopeOfLocality ∧
      p.index "ConsumedLocalOnly" = FormatBool x.ConsumedLocalOnly ∧
      p.index "IsLocal" = FormatBool x.IsLocal ∧
      p.index "endPointType" = (x.toEndpoints J).2 ∧
      p.index "transportInfo/id" = x.TransportInfo.ID ∧
      p.index "transportInfo/name" = x.TransportInfo.Name ∧
      p.index "transportInfo/description" = x.TransportInfo.Description ∧
      p.index "transportInfo/type" = x.TransportInfo.TransType ∧
      p.index "transportInfo/protocol" = x.TransportInfo.Protocol ∧
      p.index "transportInfo/version" = x.TransportInfo.Version ∧
      p.index "transportInfo/security/oAuth2Info/grantTypes" =
        Join x.TransportInfo.Security.OAuth2Info.GrantTypes "，" ∧
      p.index "transportInfo/security/oAuth2Info/tokenEndpoint" =
        x.TransportInfo.Security.OAuth2Info.TokenEndpoint := by
  refine ⟨_, rfl, ?_⟩
  simp [index_InfoToProperties_same, index_InfoToProperties_ne, Properties.index_set_same,
    Properties.index_set_ne, Properties.index_empty, ite_empty_self]

/-- What the encoded property bag holds under the two keys written directly. -/
theorem encodedProperties_direct (J : JsonLib Doc) (x : ServiceInfo Doc) :
    ∃ p, encodedProperties J x = some p ∧
      p.find? "serName" = some x.SerName ∧
      p.find? "endPointType" = some (x.toEndpoints J).2 := by
  refine ⟨_, rfl, ?_⟩
  simp [find?_InfoToProperties_ne, Properties.find?_set_same, Properties.find?_set_ne]

/-- The entries of the encoded property bag, key by key. -/
theorem encodedProperties_find (J : JsonLib Doc) (x : ServiceInfo Doc) :
    ∃ p, encodedProperties J x = some p ∧
      p.find? "serName" = some x.SerName ∧
      p.find? "endPointType" = some (x.toEndpoints J).2 ∧
      p.find? "ConsumedLocalOnly" = some (FormatBool x.ConsumedLocalOnly) ∧
      p.find? "IsLocal" = some (FormatBool x.IsLocal) ∧
      p.find? "serCategory/href" =
        (if x.SerCategory.Href = "" then none else some x.SerCategory.Href) ∧
      p.find? "serCategory/id" =
        (if x.SerCategory.ID = "" then none else some x.SerCategory.ID) ∧
      p.find? "serCategory/name" =
        (if x.SerCategory.Name = "" then none else some x.SerCategory.Name) ∧
      p.find? "serCategory/version" =
        (if x.SerCategory.Version = "" then none else some x.SerCategory.Version) ∧
      p.find? "transportId" = (if x.TransportID = "" then none else some x.TransportID) ∧
      p.find? "serializer" = (if x.Serializer = "" then none else some x.Serializer) ∧
      p.find? "ScopeOfLocality" =
        (if x.ScopeOfLocality = "" then none else some x.ScopeOfLocality) ∧
      p.find? "transportInfo/id" =
        (if x.TransportInfo.ID = "" then none else some x.TransportInfo.ID) ∧
      p.find? "transportInfo/name" =
        (if x.TransportInfo.Name = "" then none else some x.TransportInfo.Name) ∧
      p.find? "transportInfo/description" =
        (if x.TransportInfo.Description = "" then none
          else some x.TransportInfo.Description) ∧
      p.find? "transportInfo/type" =
        (if x.TransportInfo.TransType = "" then none else some x.TransportInfo.TransType) ∧
      p.find? "transportInfo/protocol" =
        (if x.TransportInfo.Protocol = "" then none else some x.TransportInfo.Protocol) ∧
      p.find? "transportInfo/version" =
        (if x.TransportInfo.Version = "" then none else some x.TransportInfo.Version) ∧
      p.find? "transportInfo/security/oAuth2Info/grantTypes" =
        (if Join x.TransportInfo.Security.OAuth2Info.GrantTypes "，" = "" then none
          else some (Join x.TransportInfo.Security.OAuth2Info.GrantTypes "，")) ∧
      p.find? "transportInfo/security/oAuth2Info/tokenEndpoint" =
        (if x.TransportInfo.Security.OAuth2Info.TokenEndpoint = "" then none
          else some x.TransportInfo.Security.OAuth2Info.TokenEndpoint) := by
  refine ⟨_, rfl, ?_⟩
  have hb : ∀ b : Bool, ¬ (FormatBool b = "") := by decide
  simp [find?_InfoToProperties_same, find?_InfoToProperties_ne, Properties.find?_set_same,
    Properties.find?_set_ne, Properties.find?_empty, hb]

/-- In the encoded property bag only `serName` and `endPointType` can have an empty value. -/
theorem encodedProperties_nonempty_values (J : JsonLib Doc) (x : ServiceInfo Doc) :
    ∃ p, encodedProperties J x = some p ∧
      ∀ k v, p.find? k = some v → ¬ (k = "serName" ∨ k = "endPointType") → v ≠ "" := by
  refine ⟨_, rfl, ?_⟩
  repeat first
    | apply InfoToProperties_nonempty_values
    | apply set_nonempty_values _ _ _ _ _ (Or.inl (Or.inl rfl))
    | apply set_nonempty_values _ _ _ _ _ (Or.inl (Or.inr rfl))
  intro k v h
  cases h

/-- `fromEndpoints` changes nothing but the endpoint of the transport info. -/
theorem fromEndpoints_frame (J : JsonLib Doc) (s y : ServiceInfo Doc) (uris : List String)
    (epType : String) (h : s.fromEndpoints J uris epType = some y) :
    y = { s with TransportInfo := { s.TransportInfo with Endpoint := y.TransportInfo.Endpoint } } := by
  unfold ServiceInfo.fromEndpoints at h
  split at h
  · cases h; rfl
  · simp only at h
    split at h
    · split at h
      · cases h
      · split at h <;> (cases h; split <;> rfl)
    · cases h; split <;> rfl

/-- The endpoint `fromEndpoints` computes depends on the endpoint it starts from only. -/
theorem fromEndpoints_endpoint (J : JsonLib Doc) (s t : ServiceInfo Doc) (uris : List String)
    (epType : String) (h : s.TransportInfo.Endpoint = t.TransportInfo.Endpoint) :
    (s.fromEndpoints J uris epType).map (fun y => y.TransportInfo.Endpoint) =
      (t.fromEndpoints J uris epType).map (fun y => y.TransportInfo.Endpoint) := by
  unfold ServiceInfo.fromEndpoints
  split
  · simp [h]
  · simp only
    split
    · split
      · rfl
      · split <;> split <;> simp [h]
    · split <;> simp [h]

/-- The decoder does not panic unless the marker is `alternative` and there is no endpoint. -/
theorem fromEndpoints_isSome (J : JsonLib Doc) (s : ServiceInfo Doc) (uris : List String)
    (epType : String) (h : uris ≠ [] ∨ epType ≠ "alternative") :
    ∃ y, s.fromEndpoints J uris epType = some y := by
  unfold ServiceInfo.fromEndpoints
  split
  · exact ⟨_, rfl⟩
  · simp only
    split
    · rename_i halt
      cases uris with
      | nil => simp [halt] at h
      | cons u us => simp only; split <;> exact ⟨_, rfl⟩
    · exact ⟨_, rfl⟩

/-- The fields of a decoded description other than the endpoint, read off the record. -/
theorem decode_fields (J : JsonLib Doc) (inst : MicroServiceInstance) (p : Properties)
    (y : ServiceInfo Doc) (hp : inst.Properties = some p) (hy : decode J inst = some y) :
    y.SerInstanceId = inst.ServiceId ++ inst.InstanceId ∧
    y.SerName = p.index "serName" ∧
    y.SerCategory =
      { Href := p.index "serCategory/href", ID := p.index "serCategory/id",
        Name := p.index "serCategory/name", Version := p.index "serCategory/version" } ∧
    y.Version = inst.Version ∧
    y.State = (if inst.Status = "DOWN" then "INACTIVE" else "ACTIVE") ∧
    y.TransportID = p.index "transportId" ∧
    y.Serializer = p.index "serializer" ∧
    y.ScopeOfLocality = p.index "ScopeOfLocality" ∧
    y.ConsumedLocalOnly = (ParseBool (p.index "ConsumedLocalOnly")).1 ∧
    y.IsLocal = (ParseBool (p.index "IsLocal")).1 ∧
    y.TransportInfo.ID = p.index "transportInfo/id" ∧
    y.TransportInfo.Name = p.index "transportInfo/name" ∧
    y.TransportInfo.Description = p.index "transportInfo/description" ∧
    y.TransportInfo.TransType = p.index "transportInfo/type" ∧
    y.TransportInfo.Protocol = p.index "transportInfo/protocol" ∧
    y.TransportInfo.Version = p.index "transportInfo/version" ∧
    y.TransportInfo.Security.OAuth2Info.GrantTypes =
      Split (p.index "transportInfo/security/oAuth2Info/grantTypes") ',' ∧
    y.TransportInfo.Security.OAuth2Info.TokenEndpoint =
      p.index "transportInfo/security/oAuth2Info/tokenEndpoint" := by
  simp only [decode, ServiceInfo.FromServiceInstance, hp] at hy
  split at hy
  · cases hy
  · rename_i s1 hs1
    have hf := fromEndpoints_frame J _ _ _ _ hs1
    cases hy
    rw [hf]
    by_cases hd : inst.Status = "DOWN" <;>
      simp [ServiceInfo.transportInfoFromProperties, ServiceInfo.serCategoryFromProperties, hd]

/-- The endpoint of a decoded description is the one `fromEndpoints` builds from nothing. -/
theorem decode_endpoint (J : JsonLib Doc) (inst : MicroServiceInstance) (p : Properties)
    (hp : inst.Properties = some p) :
    (decode J inst).map (fun y => y.TransportInfo.Endpoint) =
      ((({} : ServiceInfo Doc).fromEndpoints J inst.Endpoints (p.index "endPointType")).map
        (fun y => y.TransportInfo.Endpoint)) := by
  have key : ∀ s0 : ServiceInfo Doc,
      s0.TransportInfo.Endpoint = ({} : ServiceInfo Doc).TransportInfo.Endpoint →
      Option.map (fun y => y.TransportInfo.Endpoint)
        (match s0.fromEndpoints J inst.Endpoints (p.index "endPointType") with
          | none => none
          | some s => some (s.transportInfoFromProperties (some p))) =
      ((({} : ServiceInfo Doc).fromEndpoints J inst.Endpoints (p.index "endPointType")).map
        (fun y => y.TransportInfo.Endpoint)) := by
    intro s0 h0
    rw [← fromEndpoints_endpoint J s0 {} _ _ h0]
    cases s0.fromEndpoints J inst.Endpoints (p.index "endPointType") <;> rfl
  simp only [decode, ServiceInfo.FromServiceInstance, hp]
  apply key
  split <;> rfl

/-- Decoding does not panic unless the marker is `alternative` and there is no endpoint. -/
theorem decode_isSome (J : JsonLib Doc) (inst : MicroServiceInstance) (p : Properties)
    (hp : inst.Properties = some p)
    (h : inst.Endpoints ≠ [] ∨ p.index "endPointType" ≠ "alternative") :
    ∃ y, decode J inst = some y := by
  have key : ∀ s0 : ServiceInfo Doc, ∃ y,
      (match s0.fromEndpoints J inst.Endpoints (p.index "endPointType") with
        | none => none
        | some s => some (s.transportInfoFromProperties (some p))) = some y := by
    intro s0
    obtain ⟨y, hy⟩ := fromEndpoints_isSome J s0 inst.Endpoints (p.index "endPointType") h
    rw [hy]
    exact ⟨_, rfl⟩
  simp only [decode, ServiceInfo.FromServiceInstance, hp]
  exact key _

/-- Encoding and then decoding never panics; the pieces of the round trip. -/
theorem roundTrip_spec (J : JsonLib Doc) (x : ServiceInfo Doc) (now : Int)
    (req : RegisterInstanceRequest) :
    ∃ inst p y, encode J x now req = some inst ∧ inst.Properties = some p ∧
      encodedProperties J x = some p ∧
      inst.Version = x.Version ∧
      inst.Status = (if x.State = "INACTIVE" then "DOWN" else "UP") ∧
      inst.Endpoints = (x.toEndpoints J).1 ∧
      decode J inst = some y ∧ roundTrip J x now req = some y := by
  obtain ⟨inst, he, hprops, hv, hs, hep, -⟩ := encode_some J x now req
  obtain ⟨p, hp, -, hmark⟩ := encodedProperties_direct J x
  have hip : inst.Properties = some p := hprops.trans hp
  have hidx : p.index "endPointType" = (x.toEndpoints J).2 := by
    simp [Properties.index, hmark]
  have hok : inst.Endpoints ≠ [] ∨ p.index "endPointType" ≠ "alternative" := by
    by_cases hm : (x.toEndpoints J).2 = "alternative"
    · left; rw [hep]; exact toEndpoints_alternative J x hm
    · right; rw [hidx]; exact hm
  obtain ⟨y, hy⟩ := decode_isSome J inst p hip hok
  exact ⟨inst, p, y, he, hip, hp, hv, hs, hep, hy, by simp [roundTrip, he, hy]⟩

/-- The four ways `toEndpoints` returns, first match first. -/
theorem toEndpoints_cases (J : JsonLib Doc) (x : ServiceInfo Doc) :
    (x.TransportInfo.Endpoint.Uris ≠ [] ∧
      x.toEndpoints J = (x.TransportInfo.Endpoint.Uris, "uris")) ∨
    (x.TransportInfo.Endpoint.Uris = [] ∧ x.TransportInfo.Endpoint.Addresses ≠ [] ∧
      x.toEndpoints J =
        (x.TransportInfo.Endpoint.Addresses.map (fun v => v.Host ++ ":" ++ FormatUint v.Port),
          "addresses")) ∨
    (x.TransportInfo.Endpoint.Uris = [] ∧ x.TransportInfo.Endpoint.Addresses = [] ∧
      ∃ d t, x.TransportInfo.Endpoint.Alternative = some d ∧ J.Marshal d = .ok t ∧
        x.toEndpoints J = ([t], "alternative")) ∨
    (x.TransportInfo.Endpoint.Uris = [] ∧ x.TransportInfo.Endpoint.Addresses = [] ∧
      (x.TransportInfo.Endpoint.Alternative = none ∨
        ∃ d e, x.TransportInfo.Endpoint.Alternative = some d ∧ J.Marshal d = .error e) ∧
      x.toEndpoints J = ([], "")) := by
  by_cases hu : x.TransportInfo.Endpoint.Uris = []
  · by_cases ha : x.TransportInfo.Endpoint.Addresses = []
    · have hto : x.toEndpoints J =
          (match x.TransportInfo.Endpoint.Alternative with
            | some alt =>
              match J.Marshal alt with
              | .error _ => ([], "")
              | .ok jsonText => ([jsonText], "alternative")
            | none => ([], "")) := by
        unfold ServiceInfo.toEndpoints
        rw [hu, ha, if_neg (by simp), if_neg (by simp)]
      cases halt : x.TransportInfo.Endpoint.Alternative with
      | none =>
        right; right; right
        rw [halt] at hto
        exact ⟨hu, ha, Or.inl rfl, hto⟩
      | some d =>
        rw [halt] at hto
        cases hm : J.Marshal d with
        | error e =>
          right; right; right
          simp only [hm] at hto
          exact ⟨hu, ha, Or.inr ⟨d, e, rfl, hm⟩, hto⟩
        | ok t =>
          right; right; left
          simp only [hm] at hto
          exact ⟨hu, ha, d, t, rfl, hm, hto⟩
    · right; left
      exact ⟨hu, ha, toEndpoints_addresses J x hu ha⟩
  · left
    exact ⟨hu, toEndpoints_uris J x hu⟩

/-- The read of an absent key is the empty string. -/
theorem index_of_find?_none (p : Properties) (k : String) (h : p.find? k = none) :
    p.index k = "" := by
  simp [Properties.index, h]

/-- With the marker `alternative` and no endpoint `fromEndpoints` panics. -/
theorem fromEndpoints_alternative_nil (J : JsonLib Doc) (s : ServiceInfo Doc) :
    s.fromEndpoints J [] "alternative" = none := by
  have h1 : ¬ ("alternative" = "uris") := by decide
  have h2 : ¬ ("alternative" = "addresses") := by decide
  simp only [ServiceInfo.fromEndpoints, if_neg h1, if_neg h2, if_true]

/-- Decoding a record with a non-nil property map panics exactly when the marker
is `alternative` and there is no endpoint. -/
theorem decode_eq_none_iff (J : JsonLib Doc) (inst : MicroServiceInstance) (p : Properties)
    (hp : inst.Properties = some p) :
    decode J inst = none ↔ inst.Endpoints = [] ∧ p.index "endPointType" = "alternative" := by
  constructor
  · intro hnone
    by_cases he : inst.Endpoints = []
    · by_cases hm : p.index "endPointType" = "alternative"
      · exact ⟨he, hm⟩
      · obtain ⟨y, hy⟩ := decode_isSome J inst p hp (Or.inr hm)
        rw [hnone] at hy
        cases hy
    · obtain ⟨y, hy⟩ := decode_isSome J inst p hp (Or.inl he)
      rw [hnone] at hy
      cases hy
  · rintro ⟨he, hm⟩
    have key : ∀ s0 : ServiceInfo Doc,
        (match s0.fromEndpoints J inst.Endpoints (p.index "endPointType") with
          | none => none
          | some s => some (s.transportInfoFromProperties (some p))) = none := by
      intro s0
      rw [he, hm, fromEndpoints_alternative_nil]
    simp only [decode, ServiceInfo.FromServiceInstance, hp]
    exact key _

/-- The keys after a write are the written key and keys that were there. -/
theorem keys_set_subset (m : Properties) (k0 v0 : String) (L : List String) (h0 : k0 ∈ L)
    (hm : ∀ k ∈ m.keys, k ∈ L) : ∀ k ∈ (m.set k0 v0).keys, k ∈ L := by
  intro k hk
  simp only [Properties.keys, Properties.set, List.map_cons, List.mem_cons, List.mem_map] at hk
  rcases hk with rfl | ⟨e, he, rfl⟩
  · exact h0
  · apply hm
    simp only [Properties.keys, List.mem_map]
    exact ⟨e, (List.mem_filter.mp he).1, rfl⟩

/-- The keys after `InfoToProperties` are its key and keys that were there. -/
theorem keys_InfoToProperties_subset (m : Properties) (k0 v0 : String) (L : List String)
    (h0 : k0 ∈ L) (hm : ∀ k ∈ m.keys, k ∈ L) :
    ∀ k ∈ (InfoToProperties m k0 v0).keys, k ∈ L := by
  unfold InfoToProperties
  split
  · exact hm
  · exact keys_set_subset m k0 v0 L h0 hm

/-- Every key of the encoded property bag is a wire-format key. -/
theorem encodedProperties_keys (J : JsonLib Doc) (x : ServiceInfo Doc) :
    ∃ p, encodedProperties J x = some p ∧ ∀ k ∈ p.keys, k ∈ wireKeys := by
  refine ⟨_, rfl, ?_⟩
  repeat first
    | apply keys_InfoToProperties_subset _ _ _ _ (by decide)
    | apply keys_set_subset _ _ _ _ (by decide)
  intro k hk
  cases hk

/-- A key that `find?` finds is among the keys. -/
theorem mem_keys_of_find? (p : Properties) (k v : String) (h : p.find? k = some v) :
    k ∈ p.keys := by
  obtain ⟨es⟩ := p
  simp only [Properties.find?] at h
  simp only [Properties.keys]
  induction es with
  | nil => cases h
  | cons e es ih =>
    obtain ⟨a, b⟩ := e
    simp only [List.lookup] at h
    cases hka : (k == a) with
    | true =>
      have : k = a := by simpa using hka
      simp [this]
    | false =>
      rw [hka] at h
      simp only [List.map_cons, List.mem_cons]
      exact Or.inr (ih h)

/-- The endpoint after `FromServiceInstance` is the one `fromEndpoints` builds
from the endpoint the description had. -/
theorem FromServiceInstance_endpoint (J : JsonLib Doc) (s : ServiceInfo Doc)
    (inst : MicroServiceInstance) (p : Properties) (hp : inst.Properties = some p) :
    (ServiceInfo.FromServiceInstance J s (some inst)).map (fun y => y.TransportInfo.Endpoint) =
      (s.fromEndpoints J inst.Endpoints (p.index "endPointType")).map
        (fun y => y.TransportInfo.Endpoint) := by
  have key : ∀ s0 : ServiceInfo Doc,
      s0.TransportInfo.Endpoint = s.TransportInfo.Endpoint →
      Option.map (fun y => y.TransportInfo.Endpoint)
        (match s0.fromEndpoints J inst.Endpoints (p.index "endPointType") with
          | none => none
          | some s => some (s.transportInfoFromProperties (some p))) =
      (s.fromEndpoints J inst.Endpoints (p.index "endPointType")).map
        (fun y => y.TransportInfo.Endpoint) := by
    intro s0 h0
    rw [← fromEndpoints_endpoint J s0 s _ _ h0]
    cases s0.fromEndpoints J inst.Endpoints (p.index "endPointType") <;> rfl
  simp only [ServiceInfo.FromServiceInstance, hp]
  apply key
  split <;> rfl

/-- With the marker `alternative` and a first endpoint, `fromEndpoints` assigns
the object `JsonTextToObj` returns when it returns an error, and nothing
otherwise. -/
theorem fromEndpoints_alternative_cons (J : JsonLib Doc) (s : ServiceInfo Doc) (u : String)
    (us : List String) :
    s.fromEndpoints J (u :: us) "alternative" =
      if (JsonTextToObj J u).2 ≠ none then
        some { s with TransportInfo.Endpoint.Alternative := (JsonTextToObj J u).1 }
      else some s := by
  have h1 : ¬ ("alternative" = "uris") := by decide
  have h2 : ¬ ("alternative" = "addresses") := by decide
  simp only [ServiceInfo.fromEndpoints, if_neg h1, if_neg h2, if_true]

/-- The endpoint `fromEndpoints` builds from nothing, for each marker other
than `alternative`. -/
theorem fromEndpoints_fresh (J : JsonLib Doc) (uris : List String) (m : String)
    (hm : m ≠ "alternative") :
    (({} : ServiceInfo Doc).fromEndpoints J uris m).map (fun y => y.TransportInfo.Endpoint) =
      some
        (if m = "uris" then { Uris := uris }
          else if m = "addresses" then
            { Addresses :=
                uris.map (fun v => { Host := (GetHostPort v).1, Port := (GetHostPort v).2 % 2 ^ 32 }) }
          else {}) := by
  unfold ServiceInfo.fromEndpoints
  by_cases h1 : m = "uris"
  · simp only [if_pos h1]
    rfl
  · simp only [if_neg h1, if_neg hm]
    by_cases h2 : m = "addresses"
    · simp only [if_pos h2]
      rfl
    · simp only [if_neg h2]
      rfl

/-- The values `ParseBool` reads as true. -/
theorem ParseBool_true_iff (v : String) :
    (ParseBool v).1 = true ↔
      (v = "1" ∨ v = "t" ∨ v = "T" ∨ v = "TRUE" ∨ v = "true" ∨ v = "True") := by
  unfold ParseBool
  constructor
  · intro h
    split at h
    · rename_i hv
      rcases hv with hv | hv | hv | hv | hv | hv <;> simp [hv]
    · split at h <;> cases h
  · intro hv
    rw [if_pos (by rcases hv with hv | hv | hv | hv | hv | hv <;> simp [hv])]

/-- Decoding reads the property bag only under the keys it names, and the two
boolean keys only through `ParseBool`: two bags that agree there decode alike. -/
theorem decode_congr (J : JsonLib Doc) (inst : MicroServiceInstance) (p q : Properties)
    (hkeys : ∀ k ∈ wireKeys, k ≠ "ConsumedLocalOnly" → k ≠ "IsLocal" → p.index k = q.index k)
    (hcons : (ParseBool (p.index "ConsumedLocalOnly")).1 =
      (ParseBool (q.index "ConsumedLocalOnly")).1)
    (hloc : (ParseBool (p.index "IsLocal")).1 = (ParseBool (q.index "IsLocal")).1) :
    decode J { inst with Properties := some p } = decode J { inst with Properties := some q } := by
  have h1 := hkeys "serName" (by decide) (by decide) (by decide)
  have h2 := hkeys "serCategory/href" (by decide) (by decide) (by decide)
  have h3 := hkeys "serCategory/id" (by decide) (by decide) (by decide)
  have h4 := hkeys "serCategory/name" (by decide) (by decide) (by decide)
  have h5 := hkeys "serCategory/version" (by decide) (by decide) (by decide)
  have h6 := hkeys "transportId" (by decide) (by decide) (by decide)
  have h7 := hkeys "serializer" (by decide) (by decide) (by decide)
  have h8 := hkeys "ScopeOfLocality" (by decide) (by decide) (by decide)
  have h9 := hkeys "endPointType" (by decide) (by decide) (by decide)
  have h10 := hkeys "transportInfo/id" (by decide) (by decide) (by decide)
  have h11 := hkeys "transportInfo/name" (by decide) (by decide) (by decide)
  have h12 := hkeys "transportInfo/description" (by decide) (by decide) (by decide)
  have h13 := hkeys "transportInfo/type" (by decide) (by decide) (by decide)
  have h14 := hkeys "transportInfo/protocol" (by decide) (by decide) (by decide)
  have h15 := hkeys "transportInfo/version" (by decide) (by decide) (by decide)
  have h16 := hkeys "transportInfo/security/oAuth2Info/grantTypes" (by decide) (by decide)
    (by decide)
  have h17 := hkeys "transportInfo/security/oAuth2Info/tokenEndpoint" (by decide) (by decide)
    (by decide)
  simp only [decode, ServiceInfo.FromServiceInstance, ServiceInfo.serCategoryFromProperties,
    ServiceInfo.transportInfoFromProperties, h1, h2, h3, h4, h5, h6, h7, h8, h9, h10, h11, h12,
    h13, h14, h15, h16, h17, hcons, hloc]

/-- A failed `ParseBool` gives the value false. -/
theorem ParseBool_error (v : String) (h : (ParseBool v).2 = true) : (ParseBool v).1 = false := by
  unfold ParseBool at h ⊢
  split
  · rename_i hv
    rw [if_pos hv] at h
    cases h
  · split <;> rfl

/-- Joining with a separator that has no ASCII comma strings that have none
gives a string that has none. -/
theorem intercalate_go_no_comma (sep : String) (hsep : ∀ c ∈ sep.data, c ≠ ',') :
    ∀ (l : List String) (acc : String), (∀ c ∈ acc.data, c ≠ ',') →
      (∀ e ∈ l, ∀ c ∈ e.data, c ≠ ',') →
      ∀ c ∈ (String.intercalate.go acc sep l).data, c ≠ ',' := by
  intro l
  induction l with
  | nil =>
    intro acc hacc _
    simpa [String.intercalate.go] using hacc
  | cons a as ih =>
    intro acc hacc hl
    simp only [String.intercalate.go]
    apply ih
    · intro c hc
      simp only [String.data_append, List.mem_append] at hc
      rcases hc with (hc | hc) | hc
      · exact hacc c hc
      · exact hsep c hc
      · exact hl a (List.mem_cons_self a as) c hc
    · intro e he
      exact hl e (List.mem_cons_of_mem a he)

/-- The join with the full-width comma of strings without an ASCII comma has no
ASCII comma. -/
theorem Join_no_comma (l : List String) (hl : ∀ e ∈ l, ∀ c ∈ e.data, c ≠ ',') :
    ∀ c ∈ (Join l "，").data, c ≠ ',' := by
  unfold Join
  cases l with
  | nil =>
    intro c hc
    simp [String.intercalate] at hc
  | cons a as =>
    simp only [String.intercalate]
    apply intercalate_go_no_comma
    · decide
    · exact hl a (List.mem_cons_self a as)
    · intro e he
      exact hl e (List.mem_cons_of_mem a he)

/-- Splitting on a character a string that does not have it gives the string. -/
theorem Split_single (s : String) (sep : Char) (h : ∀ c ∈ s.data, c ≠ sep) :
    Split s sep = [s] := by
  unfold Split
  have : s.data.splitOn sep = [s.data] := by
    apply List.splitOnP_eq_single
    intro c hc
    simpa using h c hc
  rw [this]
  rfl

/-- The characters of a joined list: the elements with the separator between. -/
theorem intercalate_go_data (sep : String) :
    ∀ (l : List String) (acc : String),
      (String.intercalate.go acc sep l).data =
        acc.data ++ (l.map (fun e => sep.data ++ e.data)).flatten := by
  intro l
  induction l with
  | nil =>
    intro acc
    simp [String.intercalate.go]
  | cons a as ih =>
    intro acc
    simp only [String.intercalate.go, ih, String.data_append, List.map_cons, List.flatten_cons,
      List.append_assoc]

/-- The loop of `getTrustedIpList`: each element in quotes, followed by a comma. -/
theorem trusted_loop_data (l : List String) (acc : String) :
    (l.foldl (fun acc ipcidr => acc ++ ("\"" ++ ipcidr ++ "\",")) acc).data =
      acc.data ++ (l.map (fun e => '"' :: (e.data ++ ['"', ',']))).flatten := by
  induction l generalizing acc with
  | nil => simp
  | cons a as ih =>
    simp only [List.foldl_cons, ih, String.data_append, List.map_cons, List.flatten_cons]
    simp [List.append_assoc]

/-- A comma moves from the front of the looped text to its end. -/
theorem trusted_comma_shift (l : List String) :
    ',' :: (l.map (fun e => '"' :: (e.data ++ ['"', ',']))).flatten =
      (l.map (fun e => ',' :: '"' :: (e.data ++ ['"']))).flatten ++ [','] := by
  induction l with
  | nil => rfl
  | cons a as ih =>
    simp only [List.map_cons, List.flatten_cons]
    rw [List.append_assoc, ← ih]
    simp

/-- The characters of the quoted list of a non-empty list. -/
theorem quotedList_data (a : String) (as : List String) :
    (quotedList (a :: as)).data =
      '"' :: (a.data ++ ['"']) ++
        (as.map (fun e => ',' :: '"' :: (e.data ++ ['"']))).flatten := by
  have hq : "\"".data = ['"'] := rfl
  have hc : ",".data = [','] := rfl
  simp only [quotedList, List.map_cons, String.intercalate, intercalate_go_data, List.map_map,
    String.data_append, hq, hc, Function.comp]
  simp only [List.singleton_append, List.cons_append, List.cons.injEq, true_and]
  rfl

/-- The loop of `getTrustedIpList` on a non-empty list gives the quoted list
followed by a comma. -/
theorem trusted_loop_cons (a : String) (as : List String) :
    ((a :: as).foldl (fun acc ipcidr => acc ++ ("\"" ++ ipcidr ++ "\",")) "").data =
      (quotedList (a :: as)).data ++ [','] := by
  have he : "".data = [] := rfl
  rw [trusted_loop_data, quotedList_data, he]
  simp only [List.map_cons, List.flatten_cons, List.append_assoc, List.nil_append]
  rw [← trusted_comma_shift]
  simp

/-- The result of `getTrustedIpList`: the quoted list between the two brackets. -/
theorem getTrustedIpList_eq (l : List String) :
    getTrustedIpList l = "\x7b \"whitelist\": [" ++ quotedList l ++ "] \x7d" := by
  cases l with
  | nil => rfl
  | cons a as =>
    have hS := trusted_loop_cons a as
    have hlen : ((a :: as).foldl (fun acc ipcidr => acc ++ ("\"" ++ ipcidr ++ "\",")) "").length =
        (quotedList (a :: as)).data.length + 1 := by
      show (List.foldl _ "" (a :: as)).data.length = _
      rw [hS, List.length_append]
      rfl
    have hsuf : HasSuffix
        ((a :: as).foldl (fun acc ipcidr => acc ++ ("\"" ++ ipcidr ++ "\",")) "") "," = true := by
      unfold HasSuffix
      rw [hS]
      simp
    have hcut : sliceTo
        ((a :: as).foldl (fun acc ipcidr => acc ++ ("\"" ++ ipcidr ++ "\",")) "")
        (((a :: as).foldl (fun acc ipcidr => acc ++ ("\"" ++ ipcidr ++ "\",")) "").length -
          ",".length) = quotedList (a :: as) := by
      unfold sliceTo
      rw [hlen, hS]
      have h1 : ",".length = 1 := rfl
      rw [h1, Nat.add_sub_cancel, List.take_left']
      rfl
    unfold getTrustedIpList
    simp only [hsuf, if_true, hcut]

/-- The commas of the quoted tail of a list without commas: one per element. -/
theorem count_quoted_tail (as : List String) (h : ∀ e ∈ as, ∀ c ∈ e.data, c ≠ ',') :
    (as.map (fun e => ',' :: '"' :: (e.data ++ ['"']))).flatten.count ',' = as.length := by
  induction as with
  | nil => rfl
  | cons a as ih =>
    have ha : a.data.count ',' = 0 := by
      rw [List.count_eq_zero]
      intro hmem
      exact h a (List.mem_cons_self a as) ',' hmem rfl
    have ih' := ih (fun e he => h e (List.mem_cons_of_mem a he))
    simp only [List.map_cons, List.flatten_cons, List.cons_append, List.count_cons,
      List.count_append, ha, ih', List.length_cons]
    simp

end Lemmas

/-! ## The round trip: claims C1 to C7 -/

section RoundTrip

variable {Doc : Type}

/-- C1: for every description whose state is ACTIVE or INACTIVE, decoding into a
fresh description the record encoded from it returns a description with the same
name, version, state, transportId, serializer, scopeOfLocality, consumedLocalOnly
and isLocal. -/
theorem roundTrip_scalar_fields (J : JsonLib Doc) (x : ServiceInfo Doc) (now : Int)
    (req : RegisterInstanceRequest) (hstate : x.State = "ACTIVE" ∨ x.State = "INACTIVE") :
    ∃ y, roundTrip J x now req = some y ∧ y.SerName = x.SerName ∧ y.Version = x.Version ∧
      y.State = x.State ∧ y.TransportID = x.TransportID ∧ y.Serializer = x.Serializer ∧
      y.ScopeOfLocality = x.ScopeOfLocality ∧ y.ConsumedLocalOnly = x.ConsumedLocalOnly ∧
      y.IsLocal = x.IsLocal := by
  obtain ⟨inst, p, y, -, hip, hp, hv, hs, -, hy, hrt⟩ := roundTrip_spec J x now req
  obtain ⟨q, hq, hname, -, -, -, -, htid, hser, hscope, hcons, hloc, -⟩ :=
    encodedProperties_index J x
  obtain rfl : q = p := Option.some.inj (hq.symm.trans hp)
  obtain ⟨-, dname, -, dver, dstate, dtid, dser, dscope, dcons, dloc, -⟩ :=
    decode_fields J inst q y hip hy
  refine ⟨y, hrt, dname.trans hname, dver.trans hv, ?_, dtid.trans htid, dser.trans hser,
    dscope.trans hscope, ?_, ?_⟩
  · rw [dstate, hs]
    rcases hstate with h | h <;> simp [h]
  · rw [dcons, hcons, ParseBool_FormatBool]
  · rw [dloc, hloc, ParseBool_FormatBool]

/-- Witness of C1 at `sampleService`. -/
theorem roundTrip_scalar_fields_witness :
    (sampleService.State = "ACTIVE" ∨ sampleService.State = "INACTIVE") ∧
    ∃ y, roundTrip natJson sampleService 1600000000 {} = some y ∧
      y.SerName = sampleService.SerName ∧ y.Version = sampleService.Version ∧
      y.State = sampleService.State ∧ y.TransportID = sampleService.TransportID ∧
      y.Serializer = sampleService.Serializer ∧
      y.ScopeOfLocality = sampleService.ScopeOfLocality ∧
      y.ConsumedLocalOnly = sampleService.ConsumedLocalOnly ∧
      y.IsLocal = sampleService.IsLocal :=
  ⟨by decide, roundTrip_scalar_fields natJson sampleService 1600000000 {} (by decide)⟩

/-- C2: for every description, also one whose category fields are partly or
wholly empty, decoding the record encoded from it returns a category with the
same href, id, name and version. -/
theorem roundTrip_category (J : JsonLib Doc) (x : ServiceInfo Doc) (now : Int)
    (req : RegisterInstanceRequest) :
    ∃ y, roundTrip J x now req = some y ∧ y.SerCategory.Href = x.SerCategory.Href ∧
      y.SerCategory.ID = x.SerCategory.ID ∧ y.SerCategory.Name = x.SerCategory.Name ∧
      y.SerCategory.Version = x.SerCategory.Version := by
  obtain ⟨inst, p, y, -, hip, hp, -, -, -, hy, hrt⟩ := roundTrip_spec J x now req
  obtain ⟨q, hq, -, hhref, hid, hname, hver, -⟩ := encodedProperties_index J x
  obtain rfl : q = p := Option.some.inj (hq.symm.trans hp)
  obtain ⟨-, -, dcat, -⟩ := decode_fields J inst q y hip hy
  refine ⟨y, hrt, ?_, ?_, ?_, ?_⟩ <;> rw [dcat] <;> assumption

/-- C3: for every description, decoding the record encoded from it returns a
transport info with the same id, name, description, type, protocol, version and
OAuth2 token endpoint. -/
theorem roundTrip_transportInfo (J : JsonLib Doc) (x : ServiceInfo Doc) (now : Int)
    (req : RegisterInstanceRequest) :
    ∃ y, roundTrip J x now req = some y ∧ y.TransportInfo.ID = x.TransportInfo.ID ∧
      y.TransportInfo.Name = x.TransportInfo.Name ∧
      y.TransportInfo.Description = x.TransportInfo.Description ∧
      y.TransportInfo.TransType = x.TransportInfo.TransType ∧
      y.TransportInfo.Protocol = x.TransportInfo.Protocol ∧
      y.TransportInfo.Version = x.TransportInfo.Version ∧
      y.TransportInfo.Security.OAuth2Info.TokenEndpoint =
        x.TransportInfo.Security.OAuth2Info.TokenEndpoint := by
  obtain ⟨inst, p, y, -, hip, hp, -, -, -, hy, hrt⟩ := roundTrip_spec J x now req
  obtain ⟨q, hq, -, -, -, -, -, -, -, -, -, -, -, hid, hname, hdesc, htype, hproto, hver, -,
    htok⟩ := encodedProperties_index J x
  obtain rfl : q = p := Option.some.inj (hq.symm.trans hp)
  obtain ⟨-, -, -, -, -, -, -, -, -, -, did, dname, ddesc, dtype, dproto, dver, -, dtok⟩ :=
    decode_fields J inst q y hip hy
  exact ⟨y, hrt, did.trans hid, dname.trans hname, ddesc.trans hdesc, dtype.trans htype,
    dproto.trans hproto, dver.trans hver, dtok.trans htok⟩

/-- C4: for every description with a non-empty `Uris` list, the encoded record
has endpoints equal to `Uris` and the property `endPointType` equal to `uris`, and
decoding that record returns `Uris` equal to the original list, with `Addresses`
and `Alternative` unset. -/
theorem roundTrip_uris (J : JsonLib Doc) (x : ServiceInfo Doc) (now : Int)
    (req : RegisterInstanceRequest) (h : x.TransportInfo.Endpoint.Uris ≠ []) :
    ∃ inst p y, encode J x now req = some inst ∧ inst.Properties = some p ∧
      inst.Endpoints = x.TransportInfo.Endpoint.Uris ∧
      p.find? "endPointType" = some "uris" ∧
      decode J inst = some y ∧
      y.TransportInfo.Endpoint.Uris = x.TransportInfo.Endpoint.Uris ∧
      y.TransportInfo.Endpoint.Addresses = [] ∧
      y.TransportInfo.Endpoint.Alternative = none := by
  obtain ⟨inst, p, y, he, hip, hp, -, -, hep, hy, -⟩ := roundTrip_spec J x now req
  obtain ⟨q, hq, -, hmark⟩ := encodedProperties_direct J x
  obtain rfl : q = p := Option.some.inj (hq.symm.trans hp)
  rw [toEndpoints_uris J x h] at hep hmark
  have hd := decode_endpoint J inst q hip
  rw [hy, index_of_find? q _ _ hmark, hep] at hd
  simp only [Option.map, ServiceInfo.fromEndpoints, if_true] at hd
  have hd := Option.some.inj hd
  exact ⟨inst, q, y, he, hip, hep, hmark, hy, by rw [hd], by rw [hd], by rw [hd]⟩

/-- Witness of C4 at `Uris = ["a", "b"]`. -/
theorem roundTrip_uris_witness :
    sampleService.TransportInfo.Endpoint.Uris ≠ [] ∧
    ∃ inst p y, encode natJson sampleService 0 {} = some inst ∧ inst.Properties = some p ∧
      inst.Endpoints = ["a", "b"] ∧
      p.find? "endPointType" = some "uris" ∧
      decode natJson inst = some y ∧
      y.TransportInfo.Endpoint.Uris = ["a", "b"] ∧
      y.TransportInfo.Endpoint.Addresses = [] ∧
      y.TransportInfo.Endpoint.Alternative = none :=
  ⟨by decide, roundTrip_uris natJson sampleService 0 {} (by decide)⟩

/-- C5: for every description with empty `Uris` and a non-empty `Addresses` list
(each port a `uint32`), the encoded record has the marker `addresses` and one
endpoint `host:port` per address, and decoding it returns an `Addresses` list
equal to the original one. -/
theorem roundTrip_addresses (J : JsonLib Doc) (x : ServiceInfo Doc) (now : Int)
    (req : RegisterInstanceRequest) (hu : x.TransportInfo.Endpoint.Uris = [])
    (ha : x.TransportInfo.Endpoint.Addresses ≠ [])
    (hport : ∀ a ∈ x.TransportInfo.Endpoint.Addresses, a.Port < 2 ^ 32) :
    ∃ inst p y, encode J x now req = some inst ∧ inst.Properties = some p ∧
      p.find? "endPointType" = some "addresses" ∧
      inst.Endpoints =
        x.TransportInfo.Endpoint.Addresses.map (fun a => a.Host ++ ":" ++ FormatUint a.Port) ∧
      decode J inst = some y ∧
      y.TransportInfo.Endpoint.Addresses = x.TransportInfo.Endpoint.Addresses := by
  obtain ⟨inst, p, y, he, hip, hp, -, -, hep, hy, -⟩ := roundTrip_spec J x now req
  obtain ⟨q, hq, -, hmark⟩ := encodedProperties_direct J x
  obtain rfl : q = p := Option.some.inj (hq.symm.trans hp)
  rw [toEndpoints_addresses J x hu ha] at hep hmark
  have hd := decode_endpoint J inst q hip
  rw [hy, index_of_find? q _ _ hmark, hep] at hd
  have hne1 : ¬ ("addresses" = "uris") := by decide
  have hne2 : ¬ ("addresses" = "alternative") := by decide
  simp only [Option.map, ServiceInfo.fromEndpoints, if_neg hne1, if_neg hne2, if_true] at hd
  have hd := Option.some.inj hd
  refine ⟨inst, q, y, he, hip, hmark, hep, hy, ?_⟩
  rw [hd]
  simp only [List.map_map]
  conv_rhs => rw [← List.map_id x.TransportInfo.Endpoint.Addresses]
  apply List.map_congr_left
  intro a hmem
  simp only [Function.comp, GetHostPort_format, id]
  rw [Nat.mod_eq_of_lt (hport a hmem)]

/-- Witness of C5 at the address `10.0.0.1:8080`. -/
theorem roundTrip_addresses_witness :
    sampleAddresses.TransportInfo.Endpoint.Uris = [] ∧
    sampleAddresses.TransportInfo.Endpoint.Addresses ≠ [] ∧
    (∀ a ∈ sampleAddresses.TransportInfo.Endpoint.Addresses, a.Port < 2 ^ 32) ∧
    ∃ inst p y, encode natJson sampleAddresses 0 {} = some inst ∧ inst.Properties = some p ∧
      p.find? "endPointType" = some "addresses" ∧
      inst.Endpoints = ["10.0.0.1:8080"] ∧
      decode natJson inst = some y ∧
      y.TransportInfo.Endpoint.Addresses = [{ Host := "10.0.0.1", Port := 8080 }] :=
  ⟨by decide, by decide, by decide,
    roundTrip_addresses natJson sampleAddresses 0 {} (by decide) (by decide) (by decide)⟩

/-- C6: the description whose only endpoint variant is `Alternative` (the JSON
document `7`) encodes to the marker `alternative` with the one endpoint `7`, and
decoding that record leaves `Alternative` unset: the variant is lost. -/
theorem roundTrip_alternative_lost :
    ∃ inst y, encode natJson sampleAlternative 0 {} = some inst ∧
      inst.Endpoints = ["7"] ∧
      (inst.Properties.bind fun p => p.find? "endPointType") = some "alternative" ∧
      natJson.Unmarshal "7" = .ok (some 7) ∧
      decode natJson inst = some y ∧
      y.TransportInfo.Endpoint.Alternative = none ∧
      y.TransportInfo.Endpoint.Alternative ≠ sampleAlternative.TransportInfo.Endpoint.Alternative := by
  exact ⟨_, _, rfl, by decide, by decide, rfl, rfl, by decide, by decide⟩

/-- C7: the grant types `client_credentials`, `password` are written as one
property joined by the full-width comma, and decoding splits it on the ASCII
comma: the decoded list is the single joined string, not the original two. -/
theorem roundTrip_grantTypes_lost :
    ∃ inst y, encode natJson sampleGrantTypes 0 {} = some inst ∧
      (inst.Properties.bind fun p => p.find? "transportInfo/security/oAuth2Info/grantTypes") =
        some "client_credentials，password" ∧
      decode natJson inst = some y ∧
      y.TransportInfo.Security.OAuth2Info.GrantTypes = ["client_credentials，password"] ∧
      y.TransportInfo.Security.OAuth2Info.GrantTypes ≠
        sampleGrantTypes.TransportInfo.Security.OAuth2Info.GrantTypes := by
  refine ⟨_, _, rfl, ?_, rfl, ?_, ?_⟩ <;> decide

end RoundTrip

/-! ## The encoded record: claims C8 to C10 -/

section Encoded

variable {Doc : Type}

/-- C8, as stated, fails: the record `sampleNilProperties` has the status `DOWN`
and a nil property map; decoding it returns a description whose state is not
`INACTIVE` (it is left empty), and encoding that description gives the status
`UP`, not `DOWN`. -/
theorem status_down_decodes_inactive_counterexample :
    (¬ ∀ y : ServiceInfo Nat, decode natJson sampleNilProperties = some y →
        sampleNilProperties.Status = "DOWN" → y.State = "INACTIVE") ∧
    (¬ ∀ (y : ServiceInfo Nat) (inst1 : MicroServiceInstance),
        decode natJson sampleNilProperties = some y →
        encode natJson y 0 {} = some inst1 → inst1.Status = sampleNilProperties.Status) := by
  constructor
  · intro h
    exact absurd (h _ rfl rfl) (by decide)
  · intro h
    exact absurd (h _ _ rfl rfl) (by decide)

/-- C8, amended: encoding maps the state ACTIVE to the status UP and INACTIVE to
DOWN; for a record with a non-nil property map, every description decoded from it
has the state ACTIVE when the status is UP and INACTIVE when the status is DOWN,
and for these two statuses encoding the decoded description gives the status
back; decoding such a record returns unless the marker is `alternative` and there
is no endpoint; and the state of a description with a defined state survives
encoding and decoding. -/
theorem state_status_mapping (J : JsonLib Doc) (x : ServiceInfo Doc) (now : Int)
    (req : RegisterInstanceRequest) (inst0 : MicroServiceInstance) (p0 : Properties)
    (hp0 : inst0.Properties = some p0) :
    (∃ inst, encode J x now req = some inst ∧
      (x.State = "ACTIVE" → inst.Status = "UP") ∧
      (x.State = "INACTIVE" → inst.Status = "DOWN")) ∧
    (∀ y, decode J inst0 = some y →
      (inst0.Status = "UP" → y.State = "ACTIVE") ∧
      (inst0.Status = "DOWN" → y.State = "INACTIVE") ∧
      (inst0.Status = "UP" ∨ inst0.Status = "DOWN" →
        ∃ inst1, encode J y now req = some inst1 ∧ inst1.Status = inst0.Status)) ∧
    (inst0.Endpoints ≠ [] ∨ p0.index "endPointType" ≠ "alternative" →
      ∃ y, decode J inst0 = some y ∧
        (inst0.Status = "UP" → y.State = "ACTIVE") ∧
        (inst0.Status = "DOWN" → y.State = "INACTIVE") ∧
        (inst0.Status = "UP" ∨ inst0.Status = "DOWN" →
          ∃ inst1, encode J y now req = some inst1 ∧ inst1.Status = inst0.Status)) ∧
    (x.State = "ACTIVE" ∨ x.State = "INACTIVE" →
      ∃ y, roundTrip J x now req = some y ∧ y.State = x.State) := by
  have hdec : ∀ y, decode J inst0 = some y →
      (inst0.Status = "UP" → y.State = "ACTIVE") ∧
      (inst0.Status = "DOWN" → y.State = "INACTIVE") ∧
      (inst0.Status = "UP" ∨ inst0.Status = "DOWN" →
        ∃ inst1, encode J y now req = some inst1 ∧ inst1.Status = inst0.Status) := by
    intro y hy
    obtain ⟨-, -, -, -, dstate, -⟩ := decode_fields J inst0 p0 y hp0 hy
    refine ⟨?_, ?_, ?_⟩
    · intro h; rw [dstate, h]; decide
    · intro h; rw [dstate, h]; decide
    · intro h
      obtain ⟨inst1, he1, -, -, hs1, -⟩ := encode_some J y now req
      refine ⟨inst1, he1, ?_⟩
      rw [hs1, dstate]
      rcases h with h | h <;> rw [h] <;> decide
  refine ⟨?_, hdec, ?_, ?_⟩
  · obtain ⟨inst, he, -, -, hs, -⟩ := encode_some J x now req
    refine ⟨inst, he, ?_, ?_⟩ <;> intro h <;> rw [hs, h] <;> decide
  · intro hok
    obtain ⟨y, hy⟩ := decode_isSome J inst0 p0 hp0 hok
    exact ⟨y, hy, hdec y hy⟩
  · intro h
    obtain ⟨inst, p, y, -, hip, -, -, hs, -, hy, hrt⟩ := roundTrip_spec J x now req
    obtain ⟨-, -, -, -, dstate, -⟩ := decode_fields J inst p y hip hy
    refine ⟨y, hrt, ?_⟩
    rw [dstate, hs]
    rcases h with h | h <;> simp [h]

/-- Witness of C8 (amended) at `sampleAddresses` and `sampleInstance`. -/
theorem state_status_mapping_witness :
    sampleInstance.Properties = some ⟨[("serName", "s"), ("endPointType", "uris")]⟩ ∧
    ((∃ inst, encode natJson sampleAddresses 0 {} = some inst ∧
      (sampleAddresses.State = "ACTIVE" → inst.Status = "UP") ∧
      (sampleAddresses.State = "INACTIVE" → inst.Status = "DOWN")) ∧
    (∀ y : ServiceInfo Nat, decode natJson sampleInstance = some y →
      (sampleInstance.Status = "UP" → y.State = "ACTIVE") ∧
      (sampleInstance.Status = "DOWN" → y.State = "INACTIVE") ∧
      (sampleInstance.Status = "UP" ∨ sampleInstance.Status = "DOWN" →
        ∃ inst1, encode natJson y 0 {} = some inst1 ∧ inst1.Status = sampleInstance.Status)) ∧
    (sampleInstance.Endpoints ≠ [] ∨
        Properties.index ⟨[("serName", "s"), ("endPointType", "uris")]⟩ "endPointType" ≠
          "alternative" →
      ∃ y : ServiceInfo Nat, decode natJson sampleInstance = some y ∧
        (sampleInstance.Status = "UP" → y.State = "ACTIVE") ∧
        (sampleInstance.Status = "DOWN" → y.State = "INACTIVE") ∧
        (sampleInstance.Status = "UP" ∨ sampleInstance.Status = "DOWN" →
          ∃ inst1, encode natJson y 0 {} = some inst1 ∧
            inst1.Status = sampleInstance.Status)) ∧
    (sampleAddresses.State = "ACTIVE" ∨ sampleAddresses.State = "INACTIVE" →
      ∃ y, roundTrip natJson sampleAddresses 0 {} = some y ∧ y.State = sampleAddresses.State)) :=
  ⟨rfl,
    state_status_mapping natJson sampleAddresses 0 {} sampleInstance
      ⟨[("serName", "s"), ("endPointType", "uris")]⟩ rfl⟩

/-- C9, as stated, fails: the description `sampleNoEndpoint` (a name, no endpoint
variant) encodes to a property bag that holds the key `endPointType` with the
empty string as its value. -/
theorem encoded_values_nonempty_counterexample :
    ¬ (∀ inst p k v, encode natJson sampleNoEndpoint 0 {} = some inst →
        inst.Properties = some p → p.find? k = some v → v ≠ "") := by
  intro h
  exact h _ _ "endPointType" "" rfl rfl (by decide) rfl

/-- C9, amended: in the encoded property bag every key other than `serName` and
`endPointType` has a non-empty value, a field written through `InfoToProperties`
giving no key when it is the empty string and its own value otherwise; `serName`
and `endPointType` are written directly and are always present, holding the name
and the marker even when these are empty. -/
theorem encoded_values_nonempty (J : JsonLib Doc) (x : ServiceInfo Doc) (now : Int)
    (req : RegisterInstanceRequest) :
    ∃ inst p, encode J x now req = some inst ∧ inst.Properties = some p ∧
      (∀ k v, p.find? k = some v → ¬ (k = "serName" ∨ k = "endPointType") → v ≠ "") ∧
      p.find? "serName" = some x.SerName ∧
      p.find? "endPointType" = some (x.toEndpoints J).2 ∧
      p.find? "serCategory/href" =
        (if x.SerCategory.Href = "" then none else some x.SerCategory.Href) ∧
      p.find? "serCategory/id" =
        (if x.SerCategory.ID = "" then none else some x.SerCategory.ID) ∧
      p.find? "serCategory/name" =
        (if x.SerCategory.Name = "" then none else some x.SerCategory.Name) ∧
      p.find? "serCategory/version" =
        (if x.SerCategory.Version = "" then none else some x.SerCategory.Version) ∧
      p.find? "transportId" = (if x.TransportID = "" then none else some x.TransportID) ∧
      p.find? "serializer" = (if x.Serializer = "" then none else some x.Serializer) ∧
      p.find? "ScopeOfLocality" =
        (if x.ScopeOfLocality = "" then none else some x.ScopeOfLocality) ∧
      p.find? "transportInfo/id" =
        (if x.TransportInfo.ID = "" then none else some x.TransportInfo.ID) ∧
      p.find? "transportInfo/name" =
        (if x.TransportInfo.Name = "" then none else some x.TransportInfo.Name) ∧
      p.find? "transportInfo/description" =
        (if x.TransportInfo.Description = "" then none
          else some x.TransportInfo.Description) ∧
      p.find? "transportInfo/type" =
        (if x.TransportInfo.TransType = "" then none else some x.TransportInfo.TransType) ∧
      p.find? "transportInfo/protocol" =
        (if x.TransportInfo.Protocol = "" then none else some x.TransportInfo.Protocol) ∧
      p.find? "transportInfo/version" =
        (if x.TransportInfo.Version = "" then none else some x.TransportInfo.Version) ∧
      p.find? "transportInfo/security/oAuth2Info/grantTypes" =
        (if Join x.TransportInfo.Security.OAuth2Info.GrantTypes "，" = "" then none
          else some (Join x.TransportInfo.Security.OAuth2Info.GrantTypes "，")) ∧
      p.find? "transportInfo/security/oAuth2Info/tokenEndpoint" =
        (if x.TransportInfo.Security.OAuth2Info.TokenEndpoint = "" then none
          else some x.TransportInfo.Security.OAuth2Info.TokenEndpoint) := by
  obtain ⟨inst, he, hprops, -⟩ := encode_some J x now req
  obtain ⟨p, hp, hne⟩ := encodedProperties_nonempty_values J x
  obtain ⟨q, hq, hname, hmark, -, -, hrest⟩ := encodedProperties_find J x
  obtain rfl : q = p := Option.some.inj (hq.symm.trans hp)
  exact ⟨inst, q, he, hprops.trans hp, hne, hname, hmark, hrest⟩

/-- C10, as stated, fails: the description `sampleNoEndpoint`, with no endpoint
variant populated, encodes to a property bag in which the key `endPointType` is
present. -/
theorem endPointType_absent_counterexample :
    ¬ (∀ inst p, encode natJson sampleNoEndpoint 0 {} = some inst →
        inst.Properties = some p → inst.Endpoints = [] ∧ p.find? "endPointType" = none) := by
  intro h
  exact absurd (h _ _ rfl rfl).2 (by decide)

/-- C10, amended: for every description with `Uris` and `Addresses` empty and
`Alternative` absent or failing to serialise, the encoded record has no
endpoints, and its property bag holds the key `endPointType` with the empty
string as its value. -/
theorem no_endpoint_empty_marker (J : JsonLib Doc) (x : ServiceInfo Doc) (now : Int)
    (req : RegisterInstanceRequest) (hu : x.TransportInfo.Endpoint.Uris = [])
    (ha : x.TransportInfo.Endpoint.Addresses = [])
    (halt : x.TransportInfo.Endpoint.Alternative = none ∨
      ∃ d e, x.TransportInfo.Endpoint.Alternative = some d ∧ J.Marshal d = .error e) :
    ∃ inst p, encode J x now req = some inst ∧ inst.Properties = some p ∧
      inst.Endpoints = [] ∧ p.find? "endPointType" = some "" := by
  have hto : x.toEndpoints J = ([], "") := by
    unfold ServiceInfo.toEndpoints
    rw [hu, ha, if_neg (by simp), if_neg (by simp)]
    rcases halt with h | ⟨d, e, h, hm⟩
    · rw [h]
    · rw [h]; simp only [hm]
  obtain ⟨inst, he, hprops, -, -, hep, -⟩ := encode_some J x now req
  obtain ⟨p, hp, -, hmark⟩ := encodedProperties_direct J x
  rw [hto] at hep hmark
  exact ⟨inst, p, he, hprops.trans hp, hep, hmark⟩

/-- Witness of C10 (amended) at a description whose `Alternative` fails to serialise. -/
theorem no_endpoint_empty_marker_witness :
    sampleAlternative.TransportInfo.Endpoint.Uris = [] ∧
    sampleAlternative.TransportInfo.Endpoint.Addresses = [] ∧
    (sampleAlternative.TransportInfo.Endpoint.Alternative = none ∨
      ∃ d e, sampleAlternative.TransportInfo.Endpoint.Alternative = some d ∧
        failingJson.Marshal d = .error e) ∧
    ∃ inst p, encode failingJson sampleAlternative 0 {} = some inst ∧
      inst.Properties = some p ∧ inst.Endpoints = [] ∧ p.find? "endPointType" = some "" :=
  ⟨rfl, rfl, Or.inr ⟨7, _, rfl, rfl⟩,
    no_endpoint_empty_marker failingJson sampleAlternative 0 {} rfl rfl
      (Or.inr ⟨7, _, rfl, rfl⟩)⟩

end Encoded

/-! ## Endpoint resolution, the decoder's defaults and the constant fields: claims C11 to C20 -/

section Records

variable {Doc : Type}

/-- C11: the encoder resolves the endpoint variant by first match in the order
`Uris`, `Addresses`, `Alternative`: a non-empty `Uris` gives `Uris` and the marker
`uris` whatever the other two hold; an empty `Uris` with a non-empty `Addresses`
gives the marker `addresses` whatever `Alternative` holds; and the marker is
`alternative` only when `Uris` and `Addresses` are empty and `Alternative` is
present. The encoded record carries that result. -/
theorem toEndpoints_first_match (J : JsonLib Doc) (x : ServiceInfo Doc) (now : Int)
    (req : RegisterInstanceRequest) :
    (x.TransportInfo.Endpoint.Uris ≠ [] →
      x.toEndpoints J = (x.TransportInfo.Endpoint.Uris, "uris")) ∧
    (x.TransportInfo.Endpoint.Uris = [] → x.TransportInfo.Endpoint.Addresses ≠ [] →
      x.toEndpoints J =
        (x.TransportInfo.Endpoint.Addresses.map (fun v => v.Host ++ ":" ++ FormatUint v.Port),
          "addresses")) ∧
    ((x.toEndpoints J).2 = "alternative" →
      x.TransportInfo.Endpoint.Uris = [] ∧ x.TransportInfo.Endpoint.Addresses = [] ∧
        x.TransportInfo.Endpoint.Alternative ≠ none) ∧
    (x.TransportInfo.Endpoint.Uris = [] → x.TransportInfo.Endpoint.Addresses = [] →
      ∀ d t, x.TransportInfo.Endpoint.Alternative = some d → J.Marshal d = .ok t →
        x.toEndpoints J = ([t], "alternative")) ∧
    ∃ inst p, encode J x now req = some inst ∧ inst.Properties = some p ∧
      inst.Endpoints = (x.toEndpoints J).1 ∧
      p.find? "endPointType" = some (x.toEndpoints J).2 := by
  refine ⟨toEndpoints_uris J x, toEndpoints_addresses J x, ?_, ?_, ?_⟩
  · intro h
    rcases toEndpoints_cases J x with ⟨-, hto⟩ | ⟨-, -, hto⟩ | ⟨hu, ha, d, t, hd, -, -⟩ |
      ⟨-, -, -, hto⟩
    · rw [hto] at h
      exact absurd (show "uris" = "alternative" from h) (by decide)
    · rw [hto] at h
      exact absurd (show "addresses" = "alternative" from h) (by decide)
    · exact ⟨hu, ha, by rw [hd]; exact Option.some_ne_none d⟩
    · rw [hto] at h
      exact absurd (show "" = "alternative" from h) (by decide)
  · intro hu ha d t hd hm
    rcases toEndpoints_cases J x with ⟨hu', -⟩ | ⟨-, ha', -⟩ | ⟨-, -, d', t', hd', hm', hto⟩ |
      ⟨-, -, halt, -⟩
    · exact absurd hu hu'
    · exact absurd ha ha'
    · rw [hd] at hd'
      cases hd'
      rw [hm] at hm'
      cases hm'
      exact hto
    · rcases halt with h | ⟨d', e, hd', hm'⟩
      · rw [hd] at h
        cases h
      · rw [hd] at hd'
        cases hd'
        rw [hm] at hm'
        cases hm'
  · obtain ⟨inst, he, hprops, -, -, hep, -⟩ := encode_some J x now req
    obtain ⟨p, hp, -, hmark⟩ := encodedProperties_direct J x
    exact ⟨inst, p, he, hprops.trans hp, hep, hmark⟩

/-- Witness of C11 at a description with all three variants populated: `Uris` wins. -/
theorem toEndpoints_first_match_witness :
    sampleAllVariants.TransportInfo.Endpoint.Uris ≠ [] ∧
    sampleAllVariants.toEndpoints natJson = (["a"], "uris") :=
  ⟨by decide, (toEndpoints_first_match natJson sampleAllVariants 0 {}).1 (by decide)⟩

/-- C12: in the encoded record the marker and the endpoints agree: the value of
`endPointType` is one of `uris`, `addresses`, `alternative` exactly when there is
an endpoint; with `uris` the endpoints are `Uris`, with `addresses` there is one
endpoint per address, and with `alternative` the only endpoint is the serialised
document. -/
theorem marker_agrees_with_endpoints (J : JsonLib Doc) (x : ServiceInfo Doc) (now : Int)
    (req : RegisterInstanceRequest) :
    ∃ inst p m, encode J x now req = some inst ∧ inst.Properties = some p ∧
      p.find? "endPointType" = some m ∧
      ((m = "uris" ∨ m = "addresses" ∨ m = "alternative") ↔ inst.Endpoints ≠ []) ∧
      (m = "uris" → inst.Endpoints = x.TransportInfo.Endpoint.Uris) ∧
      (m = "addresses" →
        inst.Endpoints.length = x.TransportInfo.Endpoint.Addresses.length) ∧
      (m = "alternative" →
        ∃ d t, x.TransportInfo.Endpoint.Alternative = some d ∧ J.Marshal d = .ok t ∧
          inst.Endpoints = [t]) := by
  obtain ⟨inst, he, hprops, -, -, hep, -⟩ := encode_some J x now req
  obtain ⟨p, hp, -, hmark⟩ := encodedProperties_direct J x
  refine ⟨inst, p, (x.toEndpoints J).2, he, hprops.trans hp, hmark, ?_⟩
  rw [hep]
  rcases toEndpoints_cases J x with ⟨hu, hto⟩ | ⟨-, ha, hto⟩ | ⟨-, -, d, t, hd, hm, hto⟩ |
    ⟨-, -, -, hto⟩ <;> rw [hto]
  · refine ⟨⟨fun _ => hu, fun _ => Or.inl rfl⟩, fun _ => rfl, ?_, ?_⟩
    · intro h
      exact absurd (show "uris" = "addresses" from h) (by decide)
    · intro h
      exact absurd (show "uris" = "alternative" from h) (by decide)
  · refine ⟨⟨fun _ => by simpa using ha, fun _ => Or.inr (Or.inl rfl)⟩, ?_, ?_, ?_⟩
    · intro h
      exact absurd (show "addresses" = "uris" from h) (by decide)
    · intro _
      simp
    · intro h
      exact absurd (show "addresses" = "alternative" from h) (by decide)
  · refine ⟨⟨fun _ => by simp, fun _ => Or.inr (Or.inr rfl)⟩, ?_, ?_, ?_⟩
    · intro h
      exact absurd (show "alternative" = "uris" from h) (by decide)
    · intro h
      exact absurd (show "alternative" = "addresses" from h) (by decide)
    · intro _
      exact ⟨d, t, hd, hm, rfl⟩
  · refine ⟨⟨?_, fun h => absurd rfl h⟩, ?_, ?_, ?_⟩
    · intro h
      have h' : "" = "uris" ∨ "" = "addresses" ∨ "" = "alternative" := h
      exact absurd h' (by decide)
    · intro h
      exact absurd (show "" = "uris" from h) (by decide)
    · intro h
      exact absurd (show "" = "addresses" from h) (by decide)
    · intro h
      exact absurd (show "" = "alternative" from h) (by decide)

/-- C13, as stated, fails: the description `sampleUnknownState`, whose state is
`SUSPENDED`, encodes to the status `UP` although its state is not `ACTIVE`. -/
theorem status_up_iff_active_counterexample :
    ¬ (∀ inst, encode natJson sampleUnknownState 0 {} = some inst →
        (inst.Status = "UP" ↔ sampleUnknownState.State = "ACTIVE")) := by
  intro h
  exact absurd ((h _ rfl).mp (by decide)) (by decide)

/-- C13, amended: for every description, whatever its state string, the encoded
status is `DOWN` exactly when the state is `INACTIVE` and `UP` exactly when the
state is not `INACTIVE`; so it is always one of the two, `ACTIVE` encodes to `UP`,
and among the states `ACTIVE` and `INACTIVE` the status is `UP` exactly for
`ACTIVE`. -/
theorem status_of_state (J : JsonLib Doc) (x : ServiceInfo Doc) (now : Int)
    (req : RegisterInstanceRequest) :
    ∃ inst, encode J x now req = some inst ∧
      (inst.Status = "DOWN" ↔ x.State = "INACTIVE") ∧
      (inst.Status = "UP" ↔ x.State ≠ "INACTIVE") ∧
      (inst.Status = "UP" ∨ inst.Status = "DOWN") ∧
      (x.State = "ACTIVE" → inst.Status = "UP") ∧
      (x.State = "ACTIVE" ∨ x.State = "INACTIVE" →
        (inst.Status = "UP" ↔ x.State = "ACTIVE")) := by
  obtain ⟨inst, he, -, -, hs, -⟩ := encode_some J x now req
  refine ⟨inst, he, ?_⟩
  rw [hs]
  have hne : ¬ ("UP" = "DOWN") := by decide
  have hne' : ¬ ("DOWN" = "UP") := by decide
  by_cases h : x.State = "INACTIVE"
  · rw [if_pos h]
    refine ⟨⟨fun _ => h, fun _ => rfl⟩, ⟨fun hh => absurd hh hne', fun hh => absurd h hh⟩,
      Or.inr rfl, ?_, ?_⟩
    · intro ha
      rw [ha] at h
      exact absurd h (by decide)
    · intro _
      refine ⟨fun hh => absurd hh hne', fun ha => ?_⟩
      rw [ha] at h
      exact absurd h (by decide)
  · rw [if_neg h]
    refine ⟨⟨fun hh => absurd hh hne, fun hh => absurd hh h⟩, ⟨fun _ => h, fun _ => rfl⟩,
      Or.inl rfl, fun _ => rfl, ?_⟩
    intro hor
    rcases hor with ha | hi
    · exact ⟨fun _ => ha, fun _ => rfl⟩
    · exact absurd hi h

/-- C14, as stated, fails: the record `sampleNilProperties`, with service id
`s1`, instance id `i1` and a nil property map, decodes to a description whose
identifier is empty, not `s1i1`. -/
theorem nil_properties_identifier_counterexample :
    ¬ (∀ y : ServiceInfo Nat, decode natJson sampleNilProperties = some y →
        y.SerInstanceId = sampleNilProperties.ServiceId ++ sampleNilProperties.InstanceId) := by
  intro h
  exact absurd (h _ rfl) (by decide)

/-- C14, amended: for every record whose property map is nil, decoding does not
fail and leaves the description as it was: decoded into a fresh description,
every field, the identifier included, has its default value. -/
theorem nil_properties_unchanged (J : JsonLib Doc) (s : ServiceInfo Doc)
    (inst : MicroServiceInstance) (h : inst.Properties = none) :
    ServiceInfo.FromServiceInstance J s (some inst) = some s ∧
    decode J inst = some {} ∧
    ∃ y, decode J inst = some y ∧ y.SerInstanceId = "" := by
  have h1 : ∀ s : ServiceInfo Doc, ServiceInfo.FromServiceInstance J s (some inst) = some s := by
    intro s
    simp only [ServiceInfo.FromServiceInstance, h]
  exact ⟨h1 s, h1 {}, {}, h1 {}, rfl⟩

/-- Witness of C14 (amended) at the record `sampleNilProperties`. -/
theorem nil_properties_unchanged_witness :
    sampleNilProperties.Properties = none ∧
    (ServiceInfo.FromServiceInstance natJson sampleService (some sampleNilProperties) =
        some sampleService ∧
      decode natJson sampleNilProperties = some {} ∧
      ∃ y, decode natJson sampleNilProperties = some y ∧ y.SerInstanceId = "") :=
  ⟨rfl, nil_properties_unchanged natJson sampleService sampleNilProperties rfl⟩

/-- C15: the record `sampleAlternativeNoEndpoint` has a non-nil property map, the
marker `alternative` and no endpoint; decoding it panics (`uris[0]` on an empty
slice). Decoding a record with a non-nil property map panics exactly on such
records. -/
theorem decode_panics_without_endpoint :
    sampleAlternativeNoEndpoint.Properties ≠ none ∧
    sampleAlternativeNoEndpoint.Endpoints = [] ∧
    (decode natJson sampleAlternativeNoEndpoint : Option (ServiceInfo Nat)) = none ∧
    ∀ (D : Type) (J : JsonLib D) (inst : MicroServiceInstance) (p : Properties),
      inst.Properties = some p →
      (decode J inst = none ↔ inst.Endpoints = [] ∧ p.index "endPointType" = "alternative") :=
  ⟨by decide, rfl, rfl, fun _ J inst p hp => decode_eq_none_iff J inst p hp⟩

/-- C16: the property bag of the record `sampleAlternativeNoEndpoint` has neither
the key `ConsumedLocalOnly` nor the key `IsLocal`, and decoding the record panics
instead of returning `false` for both. On every record without the two keys that
has an endpoint or a marker other than `alternative`, decoding returns and both
fields are `false`. -/
theorem missing_bool_keys_decode :
    (sampleAlternativeNoEndpoint.Properties.bind fun p => p.find? "ConsumedLocalOnly") = none ∧
    (sampleAlternativeNoEndpoint.Properties.bind fun p => p.find? "IsLocal") = none ∧
    (decode natJson sampleAlternativeNoEndpoint : Option (ServiceInfo Nat)) = none ∧
    ∀ (D : Type) (J : JsonLib D) (inst : MicroServiceInstance) (p : Properties),
      inst.Properties = some p →
      p.find? "ConsumedLocalOnly" = none → p.find? "IsLocal" = none →
      (inst.Endpoints ≠ [] ∨ p.index "endPointType" ≠ "alternative") →
      ∃ y, decode J inst = some y ∧ y.ConsumedLocalOnly = false ∧ y.IsLocal = false := by
  refine ⟨rfl, rfl, rfl, ?_⟩
  intro D J inst p hp hc hl hok
  obtain ⟨y, hy⟩ := decode_isSome J inst p hp hok
  obtain ⟨-, -, -, -, -, -, -, -, dcons, dloc, -⟩ := decode_fields J inst p y hp hy
  refine ⟨y, hy, ?_, ?_⟩
  · rw [dcons, index_of_find?_none p _ hc]
    decide
  · rw [dloc, index_of_find?_none p _ hl]
    decide

/-- C17: decoding the record `sampleEmptyBag`, whose property bag is not nil and
has no key, returns a description with the empty string for the name, the
transport id, the serializer, the scope of locality and every category and
transport-info field, but with the grant types `[""]`, a sequence of length 1, not
the empty sequence. The same holds for every record whose bag lacks the key
`transportInfo/security/oAuth2Info/grantTypes`. -/
theorem missing_grantTypes_decode :
    (∃ y : ServiceInfo Nat, decode natJson sampleEmptyBag = some y ∧
      y.TransportInfo.Security.OAuth2Info.GrantTypes = [""] ∧
      y.TransportInfo.Security.OAuth2Info.GrantTypes.length = 1 ∧
      y.SerName = "" ∧ y.TransportID = "" ∧ y.Serializer = "" ∧ y.ScopeOfLocality = "" ∧
      y.SerCategory = { Href := "", ID := "", Name := "", Version := "" } ∧
      y.TransportInfo.ID = "" ∧ y.TransportInfo.Name = "" ∧
      y.TransportInfo.Description = "" ∧ y.TransportInfo.TransType = "" ∧
      y.TransportInfo.Protocol = "" ∧ y.TransportInfo.Version = "" ∧
      y.TransportInfo.Security.OAuth2Info.TokenEndpoint = "") ∧
    ∀ (D : Type) (J : JsonLib D) (inst : MicroServiceInstance) (p : Properties)
      (y : ServiceInfo D), inst.Properties = some p → decode J inst = some y →
      p.find? "transportInfo/security/oAuth2Info/grantTypes" = none →
      y.TransportInfo.Security.OAuth2Info.GrantTypes = [""] := by
  refine ⟨⟨_, rfl, ?_⟩, ?_⟩
  · decide
  · intro D J inst p y hp hy hk
    obtain ⟨-, -, -, -, -, -, -, -, -, -, -, -, -, -, -, -, dgrant, -⟩ :=
      decode_fields J inst p y hp hy
    rw [dgrant, index_of_find?_none p _ hk]
    decide

/-- C18: for every record with a non-nil property map, every description decoded
from it has as identifier the service id followed by the instance id, of length
the sum of the two lengths; decoding returns unless the marker is `alternative`
and there is no endpoint; and swapping the two ids of `sampleInstance` changes the
identifier. -/
theorem decoded_identifier (J : JsonLib Doc) (inst : MicroServiceInstance) (p : Properties)
    (hp : inst.Properties = some p) :
    (∀ y, decode J inst = some y →
      y.SerInstanceId = inst.ServiceId ++ inst.InstanceId ∧
      y.SerInstanceId.length = inst.ServiceId.length + inst.InstanceId.length) ∧
    (inst.Endpoints ≠ [] ∨ p.index "endPointType" ≠ "alternative" →
      ∃ y, decode J inst = some y ∧ y.SerInstanceId = inst.ServiceId ++ inst.InstanceId) ∧
    ∃ y z : ServiceInfo Nat, decode natJson sampleInstance = some y ∧
      decode natJson
        { sampleInstance with
          ServiceId := sampleInstance.InstanceId, InstanceId := sampleInstance.ServiceId } =
        some z ∧
      y.SerInstanceId = "s1i1" ∧ z.SerInstanceId = "i1s1" ∧
      y.SerInstanceId ≠ z.SerInstanceId := by
  have hid : ∀ y, decode J inst = some y →
      y.SerInstanceId = inst.ServiceId ++ inst.InstanceId := by
    intro y hy
    exact (decode_fields J inst p y hp hy).1
  refine ⟨?_, ?_, ?_⟩
  · intro y hy
    refine ⟨hid y hy, ?_⟩
    rw [hid y hy, String.length_append]
  · intro hok
    obtain ⟨y, hy⟩ := decode_isSome J inst p hp hok
    exact ⟨y, hy, hid y hy⟩
  · exact ⟨_, _, rfl, rfl, by decide, by decide, by decide⟩

/-- Witness of C18 at the record `sampleInstance`. -/
theorem decoded_identifier_witness :
    sampleInstance.Properties = some ⟨[("serName", "s"), ("endPointType", "uris")]⟩ ∧
    ((∀ y : ServiceInfo Nat, decode natJson sampleInstance = some y →
      y.SerInstanceId = sampleInstance.ServiceId ++ sampleInstance.InstanceId ∧
      y.SerInstanceId.length =
        sampleInstance.ServiceId.length + sampleInstance.InstanceId.length) ∧
    (sampleInstance.Endpoints ≠ [] ∨
        Properties.index ⟨[("serName", "s"), ("endPointType", "uris")]⟩ "endPointType" ≠
          "alternative" →
      ∃ y : ServiceInfo Nat, decode natJson sampleInstance = some y ∧
        y.SerInstanceId = sampleInstance.ServiceId ++ sampleInstance.InstanceId) ∧
    ∃ y z : ServiceInfo Nat, decode natJson sampleInstance = some y ∧
      decode natJson
        { sampleInstance with
          ServiceId := sampleInstance.InstanceId, InstanceId := sampleInstance.ServiceId } =
        some z ∧
      y.SerInstanceId = "s1i1" ∧ z.SerInstanceId = "i1s1" ∧
      y.SerInstanceId ≠ z.SerInstanceId) :=
  ⟨rfl,
    decoded_identifier natJson sampleInstance ⟨[("serName", "s"), ("endPointType", "uris")]⟩
      rfl⟩

/-- C19: for every description and every clock value `t`, the encoded record has
the version of the description, and its timestamp and modification timestamp are
both `FormatInt t`, the base-10 string of `t` (for `t` not negative, the decimal
digits whose value is `t`), so the two are equal. -/
theorem encoded_version_and_timestamps (J : JsonLib Doc) (x : ServiceInfo Doc) (t : Int)
    (req : RegisterInstanceRequest) :
    ∃ inst, encode J x t req = some inst ∧
      inst.Version = x.Version ∧
      inst.Timestamp = FormatInt t ∧ inst.ModTimestamp = FormatInt t ∧
      inst.Timestamp = inst.ModTimestamp ∧
      (0 ≤ t → parseDecimal inst.Timestamp.data = some t.toNat ∧
        parseDecimal inst.ModTimestamp.data = some t.toNat) := by
  obtain ⟨inst, he, -, hv, -, -, -, hts, hmts, -⟩ := encode_some J x t req
  refine ⟨inst, he, hv, hts, hmts, hts.trans hmts.symm, ?_⟩
  intro h
  rw [hts, hmts]
  exact ⟨parseDecimal_FormatInt t h, parseDecimal_FormatInt t h⟩

/-- C20: for every description the encoded record has the host name `default`
and the health check with mode heartbeat, port 0, interval 2147483646, which is
`2 ^ 31 - 1 - 1`, times 0 and an empty url; these do not depend on the
description, the clock or the request. -/
theorem encoded_constants (J : JsonLib Doc) (x : ServiceInfo Doc) (now : Int)
    (req : RegisterInstanceRequest) :
    ∃ inst, encode J x now req = some inst ∧
      inst.HostName = "default" ∧
      inst.HealthCheck = some
        { Mode := CheckMode.CHECK_BY_HEARTBEAT, Port := 0, Interval := 2147483646, Times := 0,
          Url := "" } ∧
      (2147483646 : Int) = 2 ^ 31 - 1 - 1 ∧
      ∀ (x1 : ServiceInfo Doc) (now1 : Int) (req1 : RegisterInstanceRequest),
        ∃ inst1, encode J x1 now1 req1 = some inst1 ∧ inst1.HostName = inst.HostName ∧
          inst1.HealthCheck = inst.HealthCheck := by
  obtain ⟨inst, he, -, -, -, -, hh, -, -, hc, -⟩ := encode_some J x now req
  refine ⟨inst, he, hh, hc, by norm_num, ?_⟩
  intro x1 now1 req1
  obtain ⟨inst1, he1, -, -, -, -, hh1, -, -, hc1, -⟩ := encode_some J x1 now1 req1
  exact ⟨inst1, he1, hh1.trans hh.symm, hc1.trans hc.symm⟩

end Records

/-! ## The key set, the decoder's branches, grant types and the gateway list: claims C21 to C30 -/

section Final

variable {Doc : Type}

/-- C21: for every description and every request, whatever property bag its
instance had before, every key of the encoded property bag is a wire-format key;
the bag is the same for every request, so the entries present before encoding are
discarded (the key `stale` of `sampleStaleRequest` is gone and its `serName` is
replaced); and `ConsumedLocalOnly` and `IsLocal` are present with the value `true`
or `false`. -/
theorem encoded_keys_are_wire_keys (J : JsonLib Doc) (x : ServiceInfo Doc) (now : Int)
    (req : RegisterInstanceRequest) :
    ∃ inst p, encode J x now req = some inst ∧ inst.Properties = some p ∧
      (∀ k ∈ p.keys, k ∈ wireKeys) ∧
      (∀ k v, p.find? k = some v → k ∈ wireKeys) ∧
      (∀ (now1 : Int) (req1 : RegisterInstanceRequest),
        ∃ inst1, encode J x now1 req1 = some inst1 ∧ inst1.Properties = some p) ∧
      (p.find? "ConsumedLocalOnly" = some "true" ∨
        p.find? "ConsumedLocalOnly" = some "false") ∧
      (p.find? "IsLocal" = some "true" ∨ p.find? "IsLocal" = some "false") ∧
      ∃ inst0 p0, encode natJson sampleService 0 sampleStaleRequest = some inst0 ∧
        inst0.Properties = some p0 ∧ p0.find? "stale" = none ∧
        p0.find? "serName" = some "locationService" := by
  obtain ⟨inst, he, hprops, -⟩ := encode_some J x now req
  obtain ⟨p, hp, hkeys⟩ := encodedProperties_keys J x
  obtain ⟨q, hq, -, -, hcons, hloc, -⟩ := encodedProperties_find J x
  obtain rfl : q = p := Option.some.inj (hq.symm.trans hp)
  refine ⟨inst, q, he, hprops.trans hp, hkeys, ?_, ?_, ?_, ?_, ?_⟩
  · intro k v hf
    exact hkeys k (mem_keys_of_find? q k v hf)
  · intro now1 req1
    obtain ⟨inst1, he1, hprops1, -⟩ := encode_some J x now1 req1
    exact ⟨inst1, he1, hprops1.trans hp⟩
  · rw [hcons]
    cases x.ConsumedLocalOnly
    · exact Or.inr rfl
    · exact Or.inl rfl
  · rw [hloc]
    cases x.IsLocal
    · exact Or.inr rfl
    · exact Or.inl rfl
  · exact ⟨_, _, rfl, rfl, by decide, by decide⟩

/-- C23: for every record with a non-nil property map, every description decoded
from it has the state `INACTIVE` exactly when the status is `DOWN` and the state
`ACTIVE` for every other status string, and has the version of the record;
decoding returns unless the marker is `alternative` and there is no endpoint. The
status `down` of `sampleBadBool` decodes to `ACTIVE`. -/
theorem decoded_state_and_version (J : JsonLib Doc) (inst : MicroServiceInstance)
    (p : Properties) (hp : inst.Properties = some p) :
    (∀ y, decode J inst = some y →
      (y.State = "INACTIVE" ↔ inst.Status = "DOWN") ∧
      (inst.Status ≠ "DOWN" → y.State = "ACTIVE") ∧
      y.Version = inst.Version) ∧
    (inst.Endpoints ≠ [] ∨ p.index "endPointType" ≠ "alternative" →
      ∃ y, decode J inst = some y ∧
        y.State = (if inst.Status = "DOWN" then "INACTIVE" else "ACTIVE") ∧
        y.Version = inst.Version) ∧
    ∃ z : ServiceInfo Nat, decode natJson sampleBadBool = some z ∧
      sampleBadBool.Status = "down" ∧ z.State = "ACTIVE" := by
  have hf : ∀ y, decode J inst = some y →
      y.State = (if inst.Status = "DOWN" then "INACTIVE" else "ACTIVE") ∧
      y.Version = inst.Version := by
    intro y hy
    obtain ⟨-, -, -, dver, dstate, -⟩ := decode_fields J inst p y hp hy
    exact ⟨dstate, dver⟩
  refine ⟨?_, ?_, ?_⟩
  · intro y hy
    obtain ⟨dstate, dver⟩ := hf y hy
    refine ⟨?_, ?_, dver⟩
    · rw [dstate]
      by_cases h : inst.Status = "DOWN"
      · rw [if_pos h]
        exact ⟨fun _ => h, fun _ => rfl⟩
      · rw [if_neg h]
        exact ⟨fun hh => absurd hh (by decide), fun hh => absurd hh h⟩
    · intro h
      rw [dstate, if_neg h]
  · intro hok
    obtain ⟨y, hy⟩ := decode_isSome J inst p hp hok
    exact ⟨y, hy, hf y hy⟩
  · exact ⟨_, rfl, rfl, rfl⟩

/-- Witness of C23 at the record `sampleInstance`. -/
theorem decoded_state_and_version_witness :
    sampleInstance.Properties = some ⟨[("serName", "s"), ("endPointType", "uris")]⟩ ∧
    ((∀ y : ServiceInfo Nat, decode natJson sampleInstance = some y →
      (y.State = "INACTIVE" ↔ sampleInstance.Status = "DOWN") ∧
      (sampleInstance.Status ≠ "DOWN" → y.State = "ACTIVE") ∧
      y.Version = sampleInstance.Version) ∧
    (sampleInstance.Endpoints ≠ [] ∨
        Properties.index ⟨[("serName", "s"), ("endPointType", "uris")]⟩ "endPointType" ≠
          "alternative" →
      ∃ y : ServiceInfo Nat, decode natJson sampleInstance = some y ∧
        y.State = (if sampleInstance.Status = "DOWN" then "INACTIVE" else "ACTIVE") ∧
        y.Version = sampleInstance.Version) ∧
    ∃ z : ServiceInfo Nat, decode natJson sampleBadBool = some z ∧
      sampleBadBool.Status = "down" ∧ z.State = "ACTIVE") :=
  ⟨rfl,
    decoded_state_and_version natJson sampleInstance
      ⟨[("serName", "s"), ("endPointType", "uris")]⟩ rfl⟩

/-- C24: for every description with an empty `Uris` and a non-empty `Addresses`,
the encoded endpoints are as many as the addresses, and the endpoint at each
position is the host of the address at that position, a colon and its port in
decimal digits. -/
theorem encoded_addresses (J : JsonLib Doc) (x : ServiceInfo Doc) (now : Int)
    (req : RegisterInstanceRequest) (hu : x.TransportInfo.Endpoint.Uris = [])
    (ha : x.TransportInfo.Endpoint.Addresses ≠ []) :
    ∃ inst, encode J x now req = some inst ∧
      inst.Endpoints.length = x.TransportInfo.Endpoint.Addresses.length ∧
      (∀ i : Nat, inst.Endpoints[i]? =
        (x.TransportInfo.Endpoint.Addresses[i]?).map
          (fun a => a.Host ++ ":" ++ FormatUint a.Port)) ∧
      (∀ a ∈ x.TransportInfo.Endpoint.Addresses,
        parseDecimal (FormatUint a.Port).data = some a.Port) := by
  obtain ⟨inst, he, -, -, -, hep, -⟩ := encode_some J x now req
  rw [toEndpoints_addresses J x hu ha] at hep
  refine ⟨inst, he, ?_, ?_, ?_⟩
  · rw [hep, List.length_map]
  · intro i
    rw [hep, List.getElem?_map]
  · intro a _
    exact (parseDecimal_toDigits a.Port).1

/-- Witness of C24 at the address `10.0.0.1:8080`. -/
theorem encoded_addresses_witness :
    sampleAddresses.TransportInfo.Endpoint.Uris = [] ∧
    sampleAddresses.TransportInfo.Endpoint.Addresses ≠ [] ∧
    ∃ inst, encode natJson sampleAddresses 0 {} = some inst ∧
      inst.Endpoints.length = sampleAddresses.TransportInfo.Endpoint.Addresses.length ∧
      (∀ i : Nat, inst.Endpoints[i]? =
        (sampleAddresses.TransportInfo.Endpoint.Addresses[i]?).map
          (fun a => a.Host ++ ":" ++ FormatUint a.Port)) ∧
      (∀ a ∈ sampleAddresses.TransportInfo.Endpoint.Addresses,
        parseDecimal (FormatUint a.Port).data = some a.Port) :=
  ⟨rfl, by decide, encoded_addresses natJson sampleAddresses 0 {} rfl (by decide)⟩

/-- C25: for every record with a non-nil property map, the marker `alternative`
and a first endpoint `u`, decoding into any description returns; it leaves `Uris`
and `Addresses` as they were; when parsing `u` succeeds it leaves `Alternative` as
it was; when parsing fails it assigns to `Alternative` the object returned with the
error, which is nil. Decoded into a fresh description, the three are unset in both
cases. -/
theorem alternative_assigned_on_failure (J : JsonLib Doc) (s : ServiceInfo Doc)
    (inst : MicroServiceInstance) (p : Properties) (u : String) (us : List String)
    (hp : inst.Properties = some p) (hm : p.index "endPointType" = "alternative")
    (he : inst.Endpoints = u :: us) :
    (∃ y, ServiceInfo.FromServiceInstance J s (some inst) = some y ∧
      y.TransportInfo.Endpoint.Uris = s.TransportInfo.Endpoint.Uris ∧
      y.TransportInfo.Endpoint.Addresses = s.TransportInfo.Endpoint.Addresses ∧
      (∀ obj, J.Unmarshal u = .ok obj →
        y.TransportInfo.Endpoint.Alternative = s.TransportInfo.Endpoint.Alternative) ∧
      (∀ err, J.Unmarshal u = .error err →
        y.TransportInfo.Endpoint.Alternative = (JsonTextToObj J u).1 ∧
        y.TransportInfo.Endpoint.Alternative = none)) ∧
    ∃ y, decode J inst = some y ∧
      y.TransportInfo.Endpoint.Uris = [] ∧ y.TransportInfo.Endpoint.Addresses = [] ∧
      y.TransportInfo.Endpoint.Alternative = none := by
  have main : ∀ s : ServiceInfo Doc,
      ∃ y, ServiceInfo.FromServiceInstance J s (some inst) = some y ∧
        y.TransportInfo.Endpoint.Uris = s.TransportInfo.Endpoint.Uris ∧
        y.TransportInfo.Endpoint.Addresses = s.TransportInfo.Endpoint.Addresses ∧
        (∀ obj, J.Unmarshal u = .ok obj →
          y.TransportInfo.Endpoint.Alternative = s.TransportInfo.Endpoint.Alternative) ∧
        (∀ err, J.Unmarshal u = .error err →
          y.TransportInfo.Endpoint.Alternative = (JsonTextToObj J u).1 ∧
          y.TransportInfo.Endpoint.Alternative = none) := by
    intro s
    have hend := FromServiceInstance_endpoint J s inst p hp
    rw [hm, he, fromEndpoints_alternative_cons] at hend
    cases hu : J.Unmarshal u with
    | ok obj =>
      have hj : JsonTextToObj J u = (obj, none) := by simp only [JsonTextToObj, hu]
      rw [hj] at hend
      simp only [ne_eq, not_true_eq_false, if_false, Option.map_some'] at hend
      cases hy : ServiceInfo.FromServiceInstance J s (some inst) with
      | none => rw [hy] at hend; cases hend
      | some y =>
        rw [hy] at hend
        have hE : y.TransportInfo.Endpoint = s.TransportInfo.Endpoint := Option.some.inj hend
        refine ⟨y, rfl, by rw [hE], by rw [hE], fun _ _ => by rw [hE], ?_⟩
        intro err herr
        cases herr
    | error e =>
      have hj : JsonTextToObj J u = (none, some e) := by simp only [JsonTextToObj, hu]
      rw [hj] at hend
      simp only [ne_eq, reduceCtorEq, not_false_eq_true, if_true, Option.map_some'] at hend
      cases hy : ServiceInfo.FromServiceInstance J s (some inst) with
      | none => rw [hy] at hend; cases hend
      | some y =>
        rw [hy] at hend
        have hE : y.TransportInfo.Endpoint = _ := Option.some.inj hend
        refine ⟨y, rfl, by rw [hE], by rw [hE], ?_, ?_⟩
        · intro obj hobj
          cases hobj
        · intro _ _
          rw [hE, hj]
          exact ⟨rfl, rfl⟩
  refine ⟨main s, ?_⟩
  obtain ⟨y, hy, h1, h2, hok, herr⟩ := main {}
  refine ⟨y, hy, h1, h2, ?_⟩
  cases hu : J.Unmarshal u with
  | ok obj => exact hok obj hu
  | error e => exact (herr e hu).2

/-- Witness of C25 at the record `sampleAlternativeInstance`, decoded into the
description `sampleAllVariants`. -/
theorem alternative_assigned_on_failure_witness :
    sampleAlternativeInstance.Properties =
      some ⟨[("serName", "s"), ("endPointType", "alternative")]⟩ ∧
    Properties.index ⟨[("serName", "s"), ("endPointType", "alternative")]⟩ "endPointType" =
      "alternative" ∧
    sampleAlternativeInstance.Endpoints = "7" :: [] ∧
    ((∃ y, ServiceInfo.FromServiceInstance natJson sampleAllVariants
          (some sampleAlternativeInstance) = some y ∧
      y.TransportInfo.Endpoint.Uris = sampleAllVariants.TransportInfo.Endpoint.Uris ∧
      y.TransportInfo.Endpoint.Addresses = sampleAllVariants.TransportInfo.Endpoint.Addresses ∧
      (∀ obj, natJson.Unmarshal "7" = .ok obj →
        y.TransportInfo.Endpoint.Alternative =
          sampleAllVariants.TransportInfo.Endpoint.Alternative) ∧
      (∀ err, natJson.Unmarshal "7" = .error err →
        y.TransportInfo.Endpoint.Alternative = (JsonTextToObj natJson "7").1 ∧
        y.TransportInfo.Endpoint.Alternative = none)) ∧
    ∃ y : ServiceInfo Nat, decode natJson sampleAlternativeInstance = some y ∧
      y.TransportInfo.Endpoint.Uris = [] ∧ y.TransportInfo.Endpoint.Addresses = [] ∧
      y.TransportInfo.Endpoint.Alternative = none) :=
  ⟨rfl, by decide, rfl,
    alternative_assigned_on_failure natJson sampleAllVariants sampleAlternativeInstance
      ⟨[("serName", "s"), ("endPointType", "alternative")]⟩ "7" [] rfl (by decide) rfl⟩

/-- C26: for every record with a non-nil property map, decoding into a fresh
description sets at most the variant the marker names: with `uris` the `Uris` are
the endpoints and the other two are unset; with `addresses` there is one address
per endpoint, in order, and the other two are unset; with any marker other than
`uris`, `addresses` and `alternative` (the absent marker reads as the empty
string) all three are unset, whatever the endpoints; and with `alternative`,
`Uris` and `Addresses` are unset. -/
theorem decoded_variant_of_marker (J : JsonLib Doc) (inst : MicroServiceInstance)
    (p : Properties) (hp : inst.Properties = some p) :
    (p.index "endPointType" = "uris" →
      ∃ y, decode J inst = some y ∧
        y.TransportInfo.Endpoint.Uris = inst.Endpoints ∧
        y.TransportInfo.Endpoint.Addresses = [] ∧
        y.TransportInfo.Endpoint.Alternative = none) ∧
    (p.index "endPointType" = "addresses" →
      ∃ y, decode J inst = some y ∧
        y.TransportInfo.Endpoint.Uris = [] ∧
        y.TransportInfo.Endpoint.Addresses =
          inst.Endpoints.map
            (fun v => { Host := (GetHostPort v).1, Port := (GetHostPort v).2 % 2 ^ 32 }) ∧
        y.TransportInfo.Endpoint.Addresses.length = inst.Endpoints.length ∧
        y.TransportInfo.Endpoint.Alternative = none) ∧
    (p.index "endPointType" ≠ "uris" → p.index "endPointType" ≠ "addresses" →
      p.index "endPointType" ≠ "alternative" →
      ∃ y, decode J inst = some y ∧
        y.TransportInfo.Endpoint.Uris = [] ∧
        y.TransportInfo.Endpoint.Addresses = [] ∧
        y.TransportInfo.Endpoint.Alternative = none) ∧
    (p.index "endPointType" = "alternative" →
      ∀ y, decode J inst = some y →
        y.TransportInfo.Endpoint.Uris = [] ∧ y.TransportInfo.Endpoint.Addresses = []) ∧
    (p.find? "endPointType" = none → p.index "endPointType" = "") := by
  have hend := decode_endpoint J inst p hp
  have hret : p.index "endPointType" ≠ "alternative" →
      ∃ y, decode J inst = some y ∧
        y.TransportInfo.Endpoint =
          (if p.index "endPointType" = "uris" then { Uris := inst.Endpoints }
            else if p.index "endPointType" = "addresses" then
              { Addresses :=
                  inst.Endpoints.map
                    (fun v => { Host := (GetHostPort v).1, Port := (GetHostPort v).2 % 2 ^ 32 }) }
            else {}) := by
    intro hm
    obtain ⟨y, hy⟩ := decode_isSome J inst p hp (Or.inr hm)
    rw [hy, fromEndpoints_fresh J inst.Endpoints _ hm] at hend
    exact ⟨y, hy, Option.some.inj hend⟩
  refine ⟨?_, ?_, ?_, ?_, index_of_find?_none p _⟩
  · intro hm
    have hne : p.index "endPointType" ≠ "alternative" := by
      rw [hm]
      decide
    obtain ⟨y, hy, hE⟩ := hret hne
    rw [if_pos hm] at hE
    exact ⟨y, hy, by rw [hE], by rw [hE], by rw [hE]⟩
  · intro hm
    have hne : p.index "endPointType" ≠ "alternative" := by
      rw [hm]
      decide
    have hnu : p.index "endPointType" ≠ "uris" := by
      rw [hm]
      decide
    obtain ⟨y, hy, hE⟩ := hret hne
    rw [if_neg hnu, if_pos hm] at hE
    exact ⟨y, hy, by rw [hE], by rw [hE], by rw [hE, List.length_map], by rw [hE]⟩
  · intro hnu hna hne
    obtain ⟨y, hy, hE⟩ := hret hne
    rw [if_neg hnu, if_neg hna] at hE
    exact ⟨y, hy, by rw [hE], by rw [hE], by rw [hE]⟩
  · intro hm y hy
    rw [hy, hm] at hend
    cases hu : inst.Endpoints with
    | nil =>
      rw [hu, fromEndpoints_alternative_nil] at hend
      cases hend
    | cons u us =>
      rw [hu, fromEndpoints_alternative_cons] at hend
      split at hend
      · have hE : y.TransportInfo.Endpoint = _ := Option.some.inj hend
        exact ⟨by rw [hE], by rw [hE]⟩
      · have hE : y.TransportInfo.Endpoint = _ := Option.some.inj hend
        exact ⟨by rw [hE], by rw [hE]⟩

/-- Witness of C26 at the record `sampleWrongCaseMarker`: the marker `URIS` sets
no variant. -/
theorem decoded_variant_of_marker_witness :
    sampleWrongCaseMarker.Properties = some ⟨[("serName", "s"), ("endPointType", "URIS")]⟩ ∧
    ∃ y : ServiceInfo Nat, decode natJson sampleWrongCaseMarker = some y ∧
      y.TransportInfo.Endpoint.Uris = [] ∧
      y.TransportInfo.Endpoint.Addresses = [] ∧
      y.TransportInfo.Endpoint.Alternative = none :=
  ⟨rfl,
    (decoded_variant_of_marker natJson sampleWrongCaseMarker
      ⟨[("serName", "s"), ("endPointType", "URIS")]⟩ rfl).2.2.1
      (by decide) (by decide) (by decide)⟩

/-- C27: for every record with a non-nil property map, every description decoded
from it has `ConsumedLocalOnly` (resp. `IsLocal`) true exactly when the property
reads `1`, `t`, `T`, `TRUE`, `true` or `True`, an absent key reading as the empty
string; with any other value, unparsable text included, the whole result of the
decode, a panic included, is the one for the value `false`; and decoding returns
unless the marker is `alternative` and there is no endpoint. -/
theorem bool_properties_decode (J : JsonLib Doc) (inst : MicroServiceInstance)
    (p : Properties) (hp : inst.Properties = some p) :
    (∀ y, decode J inst = some y →
      (y.ConsumedLocalOnly = true ↔
        (p.index "ConsumedLocalOnly" = "1" ∨ p.index "ConsumedLocalOnly" = "t" ∨
          p.index "ConsumedLocalOnly" = "T" ∨ p.index "ConsumedLocalOnly" = "TRUE" ∨
          p.index "ConsumedLocalOnly" = "true" ∨ p.index "ConsumedLocalOnly" = "True")) ∧
      (y.IsLocal = true ↔
        (p.index "IsLocal" = "1" ∨ p.index "IsLocal" = "t" ∨ p.index "IsLocal" = "T" ∨
          p.index "IsLocal" = "TRUE" ∨ p.index "IsLocal" = "true" ∨
          p.index "IsLocal" = "True")) ∧
      (p.find? "ConsumedLocalOnly" = none → y.ConsumedLocalOnly = false) ∧
      (p.find? "IsLocal" = none → y.IsLocal = false)) ∧
    ((ParseBool (p.index "ConsumedLocalOnly")).1 = false →
      decode J inst =
        decode J { inst with Properties := some (p.set "ConsumedLocalOnly" "false") }) ∧
    ((ParseBool (p.index "IsLocal")).1 = false →
      decode J inst = decode J { inst with Properties := some (p.set "IsLocal" "false") }) ∧
    (∀ v, (ParseBool v).2 = true → (ParseBool v).1 = false) ∧
    (inst.Endpoints ≠ [] ∨ p.index "endPointType" ≠ "alternative" →
      ∃ y, decode J inst = some y) := by
  have hinst : inst = { inst with Properties := some p } := by
    cases inst
    simp only at hp
    simp only [hp]
  have hfalse : (ParseBool "false").1 = false := by decide
  refine ⟨?_, ?_, ?_, ParseBool_error, decode_isSome J inst p hp⟩
  · intro y hy
    obtain ⟨-, -, -, -, -, -, -, -, dcons, dloc, -⟩ := decode_fields J inst p y hp hy
    refine ⟨?_, ?_, ?_, ?_⟩
    · rw [dcons]
      exact ParseBool_true_iff _
    · rw [dloc]
      exact ParseBool_true_iff _
    · intro h
      rw [dcons, index_of_find?_none p _ h]
      decide
    · intro h
      rw [dloc, index_of_find?_none p _ h]
      decide
  · intro h
    conv_lhs => rw [hinst]
    apply decode_congr
    · intro k _ hk _
      exact (Properties.index_set_ne p k "ConsumedLocalOnly" "false" hk).symm
    · rw [Properties.index_set_same, h, hfalse]
    · rw [Properties.index_set_ne p "IsLocal" "ConsumedLocalOnly" "false" (by decide)]
  · intro h
    conv_lhs => rw [hinst]
    apply decode_congr
    · intro k _ _ hk
      exact (Properties.index_set_ne p k "IsLocal" "false" hk).symm
    · rw [Properties.index_set_ne p "ConsumedLocalOnly" "IsLocal" "false" (by decide)]
    · rw [Properties.index_set_same, h, hfalse]

/-- Witness of C27 at the record `sampleBadBool`: the unparsable value `yes` and
the absent `IsLocal` both decode to false. -/
theorem bool_properties_decode_witness :
    sampleBadBool.Properties =
      some ⟨[("serName", "s"), ("endPointType", "addresses"), ("ConsumedLocalOnly", "yes")]⟩ ∧
    ∃ y : ServiceInfo Nat, decode natJson sampleBadBool = some y ∧
      y.ConsumedLocalOnly = false ∧ y.IsLocal = false ∧
      decode natJson sampleBadBool =
        decode natJson
          { sampleBadBool with
            Properties := some
              (Properties.set
                ⟨[("serName", "s"), ("endPointType", "addresses"),
                  ("ConsumedLocalOnly", "yes")]⟩
                "ConsumedLocalOnly" "false") } :=
  ⟨rfl, _, rfl, rfl, rfl,
    (bool_properties_decode natJson sampleBadBool
      ⟨[("serName", "s"), ("endPointType", "addresses"), ("ConsumedLocalOnly", "yes")]⟩
      rfl).2.1 (by decide)⟩

/-- C28: the grant types are written joined with the full-width comma and read
split on the ASCII comma: for every description whose grant types contain no
ASCII comma, the property, when the join is not empty, holds the joined string,
and the decoded grant types are the one-element list holding the joined string;
so a list of exactly one element comes back unchanged. -/
theorem grantTypes_decoded_as_joined (J : JsonLib Doc) (x : ServiceInfo Doc) (now : Int)
    (req : RegisterInstanceRequest)
    (hl : ∀ e ∈ x.TransportInfo.Security.OAuth2Info.GrantTypes, ∀ c ∈ e.data, c ≠ ',') :
    ∃ inst p y, encode J x now req = some inst ∧ inst.Properties = some p ∧
      (Join x.TransportInfo.Security.OAuth2Info.GrantTypes "，" ≠ "" →
        p.find? "transportInfo/security/oAuth2Info/grantTypes" =
          some (Join x.TransportInfo.Security.OAuth2Info.GrantTypes "，")) ∧
      decode J inst = some y ∧
      y.TransportInfo.Security.OAuth2Info.GrantTypes =
        [Join x.TransportInfo.Security.OAuth2Info.GrantTypes "，"] ∧
      (∀ e, x.TransportInfo.Security.OAuth2Info.GrantTypes = [e] →
        y.TransportInfo.Security.OAuth2Info.GrantTypes =
          x.TransportInfo.Security.OAuth2Info.GrantTypes) := by
  obtain ⟨inst, p, y, he, hip, hp, -, -, -, hy, -⟩ := roundTrip_spec J x now req
  obtain ⟨q, hq, -, -, -, -, -, -, -, -, -, -, -, -, -, -, -, -, -, hgrant, -⟩ :=
    encodedProperties_index J x
  obtain rfl : q = p := Option.some.inj (hq.symm.trans hp)
  obtain ⟨q', hq', -, -, -, -, -, -, -, -, -, -, -, -, -, -, -, -, -, hfind, -⟩ :=
    encodedProperties_find J x
  obtain rfl : q' = q := Option.some.inj (hq'.symm.trans hp)
  obtain ⟨-, -, -, -, -, -, -, -, -, -, -, -, -, -, -, -, dgrant, -⟩ :=
    decode_fields J inst q' y hip hy
  have hsplit : y.TransportInfo.Security.OAuth2Info.GrantTypes =
      [Join x.TransportInfo.Security.OAuth2Info.GrantTypes "，"] := by
    rw [dgrant, hgrant]
    exact Split_single _ ',' (Join_no_comma _ hl)
  refine ⟨inst, q', y, he, hip, ?_, hy, hsplit, ?_⟩
  · intro hne
    rw [hfind, if_neg hne]
  · intro e hone
    rw [hsplit, hone]
    rfl

/-- Witness of C28 at the single grant type `client_credentials`. -/
theorem grantTypes_decoded_as_joined_witness :
    (∀ e ∈ sampleOneGrantType.TransportInfo.Security.OAuth2Info.GrantTypes,
      ∀ c ∈ e.data, c ≠ ',') ∧
    ∃ inst p y, encode natJson sampleOneGrantType 0 {} = some inst ∧
      inst.Properties = some p ∧
      (Join sampleOneGrantType.TransportInfo.Security.OAuth2Info.GrantTypes "，" ≠ "" →
        p.find? "transportInfo/security/oAuth2Info/grantTypes" =
          some (Join sampleOneGrantType.TransportInfo.Security.OAuth2Info.GrantTypes "，")) ∧
      decode natJson inst = some y ∧
      y.TransportInfo.Security.OAuth2Info.GrantTypes =
        [Join sampleOneGrantType.TransportInfo.Security.OAuth2Info.GrantTypes "，"] ∧
      (∀ e, sampleOneGrantType.TransportInfo.Security.OAuth2Info.GrantTypes = [e] →
        y.TransportInfo.Security.OAuth2Info.GrantTypes =
          sampleOneGrantType.TransportInfo.Security.OAuth2Info.GrantTypes) :=
  ⟨by decide, grantTypes_decoded_as_joined natJson sampleOneGrantType 0 {} (by decide)⟩

/-- C29: for every description, `ToServiceRequest` on a non-nil request sets the
service name to the name, the version to the version, the application id to the
empty string and the status to `DOWN` if the state is `INACTIVE` and to `UP`
otherwise, which is the status and the version `ToRegisterInstance` gives the
instance for the same description. -/
theorem service_request_agrees (J : JsonLib Doc) (x : ServiceInfo Doc)
    (sreq : CreateServiceRequest) (now : Int) (req : RegisterInstanceRequest) :
    ∃ r svc inst, x.ToServiceRequest (some sreq) = some r ∧ r.Service = some svc ∧
      svc.ServiceName = x.SerName ∧ svc.Version = x.Version ∧ svc.AppId = "" ∧
      svc.Status = (if x.State = "INACTIVE" then "DOWN" else "UP") ∧
      encode J x now req = some inst ∧
      svc.Status = inst.Status ∧ svc.Version = inst.Version := by
  obtain ⟨inst, he, -, hv, hs, -⟩ := encode_some J x now req
  by_cases h : x.State = "INACTIVE"
  · refine ⟨_, _, inst, rfl, rfl, ?_⟩
    simp [h, hs, hv, he]
  · refine ⟨_, _, inst, rfl, rfl, ?_⟩
    simp [h, hs, hv, he]

/-- C30: for every list `l`, `getTrustedIpList l` is the opening text, then the
elements of `l` each in double quotes and separated by single commas, then the
closing text; for the empty list nothing stands between the brackets; and for a
non-empty list whose elements have no comma the text between the brackets, and
the whole result, have one comma less than `l` has elements. -/
theorem getTrustedIpList_text (l : List String) :
    getTrustedIpList l = "\x7b \"whitelist\": [" ++ quotedList l ++ "] \x7d" ∧
    quotedList l = ",".intercalate (l.map (fun e => "\"" ++ e ++ "\"")) ∧
    getTrustedIpList [] = "\x7b \"whitelist\": [] \x7d" ∧
    getTrustedIpList ["10.0.0.0/8", "192.168.1.0/24"] =
      "\x7b \"whitelist\": [\"10.0.0.0/8\",\"192.168.1.0/24\"] \x7d" ∧
    (l ≠ [] → (∀ e ∈ l, ∀ c ∈ e.data, c ≠ ',') →
      (quotedList l).data.count ',' = l.length - 1 ∧
      (getTrustedIpList l).data.count ',' = l.length - 1) := by
  refine ⟨getTrustedIpList_eq l, rfl, rfl, by decide, ?_⟩
  intro hne hl
  cases l with
  | nil => exact absurd rfl hne
  | cons a as =>
    have ha : a.data.count ',' = 0 := by
      rw [List.count_eq_zero]
      intro hmem
      exact hl a (List.mem_cons_self a as) ',' hmem rfl
    have hq : (quotedList (a :: as)).data.count ',' = (a :: as).length - 1 := by
      rw [quotedList_data, List.count_append,
        count_quoted_tail as (fun e he => hl e (List.mem_cons_of_mem a he))]
      simp [List.count_cons, List.count_append, ha]
    refine ⟨hq, ?_⟩
    rw [getTrustedIpList_eq, String.data_append, String.data_append, List.count_append,
      List.count_append, hq]
    have h1 : ("\x7b \"whitelist\": [").data.count ',' = 0 := by decide
    have h2 : ("] \x7d").data.count ',' = 0 := by decide
    rw [h1, h2]
    omega

end Final

end Mep
